import Mathlib

/-!
# Shallow embedding of the `data-veil` core (IoTIVP/data-veil)

This file embeds the 1-D time-series veiling engines of `data_veil_core`
(`barometer.py`, `magnetometer.py`, `rf.py`, `ultrasonic.py`, `imu.py`,
`fusion.py`), the randomness lifecycle (`random_control.py`) and the profile
strength lookup (`profiles.py`) as Lean definitions, and proves or refutes the
specification claims about them.

Modelling conventions:

* Numeric values are exact rationals (`ℚ`).  Floating-point arithmetic inside
  the engines is idealised as exact rational arithmetic; the one place where
  the 32-bit representation is observable at the interface — the
  `np.asarray(v, dtype=np.float32)` conversion applied to every input
  channel — is modelled exactly by `f32`, IEEE-754 binary32 round-to-nearest,
  ties-to-even (the overflow-to-infinity region `|x| ≥ 2^128` is outside every
  claim and is modelled as unbounded-exponent rounding).  NumPy's scalar/array
  promotion is modelled value-based (a Python-float scalar times a `float32`
  array stays `float32`), and the engines' in-place `+=` updates keep the
  target array's `float32` dtype, which the `dtype` tag on arrays records.
* Arrays are lists of rationals with a `dtype` tag and an `ndim` tag (the
  fusion engine checks `ndim != 1`; all other engines consume 1-D channels).
* `numpy.random.Generator` is external library code; it is modelled as a
  deterministic stream of rational draws indexed by position (`Rng`), exactly
  as the code consumes it: a seeded generator's stream is a fixed function of
  the seed (`mkRng`), and `np.random.default_rng()` with no seed consumes
  fresh OS entropy, modelled by the `osEntropy` component of the global state.
  A draw `normal(0, σ)` is modelled as `σ ·` (next stream value); `uniform`,
  `integers`, `choice` and `random` map the next stream value into the
  requested range via its fractional part.  Draw order and draw counts follow
  the source line by line (including draws consumed by skipped anomalies).
* `sin`, `cos`, `exp`, `sqrt` and the constant `π` are transcendental; they
  are supplied by an oracle structure `Env` quantified over in the theorems,
  so no theorem below depends on unprovable facts about their values.
* Python dicts are association lists preserving insertion order; `dict`
  comprehension is `List.map`, and assignment to an existing key replaces the
  value in place.
-/

/-- Decidable equality of `Except` results (for concrete evaluation of the
engines' outcomes). -/
instance {ε α : Type} [DecidableEq ε] [DecidableEq α] : DecidableEq (Except ε α) :=
  fun x y =>
    match x, y with
    | .ok a, .ok b =>
        if h : a = b then .isTrue (by rw [h]) else .isFalse (by simp [h])
    | .error e, .error f =>
        if h : e = f then .isTrue (by rw [h]) else .isFalse (by simp [h])
    | .ok _, .error _ => .isFalse (by simp)
    | .error _, .ok _ => .isFalse (by simp)

namespace DataVeil

/-! ## IEEE-754 binary32 rounding (round to nearest, ties to even) -/

/-- Round a rational to the nearest integer, ties to even. -/
def roundHalfEven (q : ℚ) : ℤ :=
  let fl := ⌊q⌋
  let fr := q - fl
  if fr < 1/2 then fl
  else if 1/2 < fr then fl + 1
  else if fl % 2 = 0 then fl else fl + 1

/-- IEEE-754 binary32 rounding of a rational: round to nearest, ties to even,
with a 24-bit significand and subnormals below `2^(-126)` (unit in the last
place floored at `2^(-149)`).  This is the value-level effect of
`np.asarray(v, dtype=np.float32)` on a real input value. -/
def f32 (x : ℚ) : ℚ :=
  if x = 0 then 0
  else
    let e : ℤ := max (Int.log 2 |x| - 23) (-149)
    (roundHalfEven (x / 2 ^ e) : ℚ) * 2 ^ e

/-! ## Arrays, samples and dict helpers -/

/-- NumPy dtype tags that occur at the interface. -/
inductive DType where
  | f32
  | f64
  deriving DecidableEq

/-- A NumPy array at the interface: a dtype tag, the number of dimensions,
and the (flat) data.  All engines except fusion consume 1-D channels, for
which `ndim = 1` and `data` is the channel. -/
structure Arr where
  dtype : DType
  ndim : ℕ
  data : List ℚ
  deriving DecidableEq

/-- `np.asarray(v, dtype=np.float32).copy()`: every value is rounded to
binary32; the result is a fresh `float32` array of the same shape. -/
def asarrayF32 (a : Arr) : Arr :=
  ⟨.f32, a.ndim, a.data.map f32⟩

/-- A sensor sample / stream set: a Python dict from channel name to array,
as an insertion-ordered association list. -/
abbrev Sample := List (String × Arr)

/-- Key membership in a dict. -/
def hasKey (s : Sample) (k : String) : Bool :=
  (s.lookup k).isSome

/-- Fetch a channel (total; used only under key-presence guards, matching the
source which indexes only validated keys). -/
def getA (s : Sample) (k : String) : Arr :=
  (s.lookup k).getD ⟨.f64, 1, []⟩

/-- Data of a channel. -/
def getD (s : Sample) (k : String) : List ℚ :=
  (getA s k).data

/-- `required - set(d.keys())`: the required channel names absent from the
input mapping (as the filtered list, carrying exactly the missing keys). -/
def missingOf (req : List String) (s : Sample) : List String :=
  req.filter (fun k => ¬ hasKey s k)

/-- `{k: np.asarray(v, dtype=np.float32).copy() for k, v in d.items()}`. -/
def copyF32 (s : Sample) : Sample :=
  s.map (fun kv => (kv.1, asarrayF32 kv.2))

/-- Assignment `d[k] = v` for a key already present: replaces the value,
keeping dict order. -/
def setA (s : Sample) (k : String) (v : Arr) : Sample :=
  s.map (fun kv => if kv.1 = k then (kv.1, v) else kv)

/-- The key list of a dict, in insertion order. -/
def keysOf (s : Sample) : List String :=
  s.map Prod.fst

/-! ## List arithmetic helpers (NumPy 1-D array operations) -/

/-- Elementwise addition of two arrays (used only on equal-length operands,
as in the source). -/
def addL (xs ys : List ℚ) : List ℚ :=
  List.zipWith (· + ·) xs ys

/-- Scalar times array. -/
def smulL (c : ℚ) (xs : List ℚ) : List ℚ :=
  xs.map (fun x => c * x)

/-- Indexing with a default of `0` (in-range in all uses). -/
def elt (xs : List ℚ) (i : ℕ) : ℚ :=
  xs.getD i 0

/-- `np.linspace(a, b, n)`: `n` evenly spaced points from `a` to `b`
inclusive (`n = 1` gives `[a]`, `n = 0` gives `[]`). -/
def linspace (a b : ℚ) (n : ℕ) : List ℚ :=
  (List.range n).map (fun (i : ℕ) =>
    if n ≤ 1 then a else a + (b - a) * (i : ℚ) / ((n - 1 : ℕ) : ℚ))

/-- `np.cumsum`. -/
def cumsum (xs : List ℚ) : List ℚ :=
  (List.range xs.length).map (fun i => ((xs.take (i + 1)).sum))

/-- Minimum of a nonempty array (`arr.min()`); `0` on `[]`, never hit. -/
def listMin : List ℚ → ℚ
  | [] => 0
  | x :: t => t.foldl min x

/-- Maximum of a nonempty array (`arr.max()`); `0` on `[]`, never hit. -/
def listMax : List ℚ → ℚ
  | [] => 0
  | x :: t => t.foldl max x

/-- Mean of an array (`0` on `[]`, never hit). -/
def meanL (xs : List ℚ) : ℚ :=
  xs.sum / xs.length

/-- Population variance, as `np.std` squares it: mean of squared deviations. -/
def varL (xs : List ℚ) : ℚ :=
  meanL (xs.map (fun x => (x - meanL xs) ^ 2))

/-- `xs[start:start+w.length] += w`, leaving other entries untouched. -/
def sliceAdd (xs : List ℚ) (start : ℕ) (w : List ℚ) : List ℚ :=
  (List.range xs.length).map
    (fun i => elt xs i + if start ≤ i ∧ i < start + w.length then elt w (i - start) else 0)

/-- `xs[start:end] = xs[start:end] * (1 - env) + target * env` (the ultrasonic
dead-zone / phantom blend), with `env` of length `end - start`. -/
def sliceBlend (xs : List ℚ) (start : ℕ) (envl : List ℚ) (target : ℚ) : List ℚ :=
  (List.range xs.length).map
    (fun i =>
      if start ≤ i ∧ i < start + envl.length then
        elt xs i * (1 - elt envl (i - start)) + target * elt envl (i - start)
      else elt xs i)

/-- `np.clip(xs, lo, hi)` = `np.minimum(hi, np.maximum(xs, lo))`; when
`hi < lo` every output equals `hi`, as documented by NumPy. -/
def clipL (lo hi : ℚ) (xs : List ℚ) : List ℚ :=
  xs.map (fun x => min hi (max lo x))

/-- Python `int(q)`: truncation toward zero. -/
def pyInt (q : ℚ) : ℤ :=
  q.num.tdiv q.den

/-! ## The transcendental-function oracle -/

/-- Oracle for the transcendental functions and `np.pi` used by the engines.
Theorems quantify over it, so they hold for the true `sin`/`cos`/`exp`/`sqrt`
in particular. -/
structure Env where
  sin : ℚ → ℚ
  cos : ℚ → ℚ
  exp : ℚ → ℚ
  sqrt : ℚ → ℚ
  pi : ℚ

/-- A concrete oracle used by closed witnesses and counterexamples whose
conclusion does not depend on the oracle's values. -/
def env0 : Env :=
  ⟨fun _ => 0, fun _ => 0, fun _ => 0, fun _ => 0, 355/113⟩

/-- `np.std`, floored later by the callers: square root of the population
variance, via the oracle. -/
def stdL (env : Env) (xs : List ℚ) : ℚ :=
  env.sqrt (varL xs)

/-! ## The random generator model -/

/-- A `numpy.random.Generator`: a deterministic stream of rational draws and
a cursor.  A seeded generator is a fixed function of its seed; every draw
advances the cursor. -/
structure Rng where
  stream : ℕ → ℚ
  pos : ℕ

namespace Rng

/-- Next raw stream value. -/
def next (g : Rng) : ℚ × Rng :=
  (g.stream g.pos, ⟨g.stream, g.pos + 1⟩)

/-- Fractional part, mapping any raw value into `[0, 1)`. -/
def frac01 (v : ℚ) : ℚ :=
  v - ⌊v⌋

/-- `rng.random()`: one uniform draw in `[0, 1)`. -/
def random (g : Rng) : ℚ × Rng :=
  let (v, g') := g.next
  (frac01 v, g')

/-- `rng.uniform(lo, hi)`. -/
def uniform (g : Rng) (lo hi : ℚ) : ℚ × Rng :=
  let (u, g') := g.random
  (lo + (hi - lo) * u, g')

/-- `rng.uniform(lo, hi, size=n)`: `n` draws in order. -/
def uniformVec (g : Rng) (lo hi : ℚ) (n : ℕ) : List ℚ × Rng :=
  ((List.range n).map (fun i => lo + (hi - lo) * frac01 (g.stream (g.pos + i))),
   ⟨g.stream, g.pos + n⟩)

/-- `rng.normal(mean, sigma)`: a Gaussian draw is `mean + sigma ·` (a standard
normal stream value). -/
def normal (g : Rng) (mean sigma : ℚ) : ℚ × Rng :=
  let (v, g') := g.next
  (mean + sigma * v, g')

/-- `rng.normal(mean, sigma, size=n)`. -/
def normalVec (g : Rng) (mean sigma : ℚ) (n : ℕ) : List ℚ × Rng :=
  ((List.range n).map (fun i => mean + sigma * g.stream (g.pos + i)),
   ⟨g.stream, g.pos + n⟩)

/-- `rng.normal(0, sigmas[i])` elementwise with a per-element scale vector
(the adaptive-noise draws `rng.normal(0.0, noise_sigma * env, size=n)`). -/
def normalByVec (g : Rng) (sigmas : List ℚ) : List ℚ × Rng :=
  ((List.range sigmas.length).map (fun i => elt sigmas i * g.stream (g.pos + i)),
   ⟨g.stream, g.pos + sigmas.length⟩)

/-- `rng.integers(lo, hi)`: one integer uniform in `[lo, hi)` (callers always
pass `lo < hi`). -/
def integers (g : Rng) (lo hi : ℤ) : ℤ × Rng :=
  let (u, g') := g.random
  (lo + ⌊u * (hi - lo)⌋, g')

/-- `rng.choice(xs)` over a nonempty literal list. -/
def choose (g : Rng) (xs : List ℚ) : ℚ × Rng :=
  let (u, g') := g.random
  (xs.getD (⌊u * xs.length⌋).toNat 0, g')

/-- `rng.choice` over the string shape tags. -/
def chooseStr (g : Rng) (xs : List String) : String × Rng :=
  let (u, g') := g.random
  (xs.getD (⌊u * xs.length⌋).toNat "", g')

end Rng

/-! ## `random_control.py`: the shared generator lifecycle -/

/-- The stream of a seeded `np.random.default_rng(seed)`: some fixed
deterministic function of the seed (the engines never depend on which). -/
def seedStream (seed : ℕ) : ℕ → ℚ :=
  fun n => (((seed + 1) * (n + 2) * 7919) % 104729 : ℕ) / 104729

/-- `np.random.default_rng(seed)` (module `_init_rng`). -/
def mkRng (seed : ℕ) : Rng :=
  ⟨seedStream seed, 0⟩

/-- Process-wide state: the module-level `_RNG` (None until first use), the
`DATA_VEIL_SEED` environment variable, and the OS entropy consumed by every
unseeded `np.random.default_rng()` call (a fresh stream per call). -/
structure GState where
  rng : Option Rng
  envSeed : Option ℕ
  osEntropy : ℕ → ℕ → ℚ
  osPos : ℕ

/-- `set_seed(seed_value)` with an explicit seed: resets the shared generator
to a fresh seeded one.  (It also reseeds Python's `random` and the legacy
`np.random` state, which no engine reads.) -/
def set_seed (seed : ℕ) (g : GState) : GState :=
  { g with rng := some (mkRng seed) }

/-- `get_rng()`: return the shared generator, lazily initialising it from
`DATA_VEIL_SEED` (default `42`) on first use. -/
def get_rng (g : GState) : Rng × GState :=
  match g.rng with
  | some r => (r, g)
  | none =>
      let r := mkRng (g.envSeed.getD 42)
      (r, { g with rng := some r })

/-- `np.random.default_rng()` with no seed (as `imu.py` calls it): a fresh
generator seeded from OS entropy, independent of the shared seeded state. -/
def freshOsRng (g : GState) : Rng × GState :=
  (⟨g.osEntropy g.osPos, 0⟩, { g with osPos := g.osPos + 1 })

/-- Store the advanced shared generator back into the module state (draws on
the shared `Generator` mutate it in place). -/
def putRng (g : GState) (r : Rng) : GState :=
  { g with rng := some r }

/-! ## Shared engine helpers -/

/-- `rng.random(size=n)`. -/
def Rng.randomVec (g : Rng) (n : ℕ) : List ℚ × Rng :=
  ((List.range n).map (fun i => Rng.frac01 (g.stream (g.pos + i))),
   ⟨g.stream, g.pos + n⟩)

/-- `rng.normal(0, sigma, size=(n, 3))`, split into its three columns; draws
are consumed row-major, so column `j`'s `i`-th entry is draw `3 i + j`. -/
def Rng.normalMat3 (g : Rng) (sigma : ℚ) (n : ℕ) :
    (List ℚ × List ℚ × List ℚ) × Rng :=
  (((List.range n).map (fun i => sigma * g.stream (g.pos + 3 * i)),
    (List.range n).map (fun i => sigma * g.stream (g.pos + 3 * i + 1)),
    (List.range n).map (fun i => sigma * g.stream (g.pos + 3 * i + 2))),
   ⟨g.stream, g.pos + 3 * n⟩)

/-- Zero-padded integer-indexed access (for the `same`-mode convolution). -/
def eltZ (a : List ℚ) (k : ℤ) : ℚ :=
  if k < 0 then 0 else elt a k.toNat

/-- `np.convolve(a, np.ones(5)/5, mode="same")`. -/
def movingAvg5 (a : List ℚ) : List ℚ :=
  (List.range a.length).map (fun (i : ℕ) =>
    1/5 * ((List.range 5).map (fun (j : ℕ) => eltZ a ((i : ℤ) + (j : ℤ) - 2))).sum)

/-- `(t - t[0]) / max(t[-1] - t[0], 1e-6)`: the normalised time axis. -/
def tNorm (t : List ℚ) : List ℚ :=
  t.map (fun x => (x - t.headD 0) / max (t.getLastD 0 - t.headD 0) (1/1000000))

/-- Run a per-anomaly step `count` times, threading the channel state and the
generator (the engines' `for _ in range(count)` loops). -/
def iterateDraws {α : Type} (step : α → Rng → α × Rng) : ℕ → α → Rng → α × Rng
  | 0, p, rng => (p, rng)
  | k + 1, p, rng =>
      let (p', rng') := step p rng
      iterateDraws step k p' rng'

/-! ## Errors -/

/-- The schema errors the engines raise (all `ValueError` in the source). -/
inductive VeilError where
  /-- `"veil_<fn> missing keys: {missing}"` -/
  | missingKeys (fn : String) (missing : List String)
  /-- `"veil_fusion_timeseries: sensors dict is empty."` -/
  | emptySensors
  /-- `"veil_fusion_timeseries: sensor '<name>' is not 1D."` -/
  | notOneD (name : String)
  deriving DecidableEq

/-! ## `barometer.py` -/

/-- The anomaly count of `veil_barometer`:
`max(int(3 * strength) + rng.integers(0, 3), 1)`. -/
def baroAnomalyCount (strength : ℚ) (jit : ℤ) : ℤ :=
  max (pyInt (3 * strength) + jit) 1

/-- The multi-frequency sinusoidal drift of `veil_barometer`: frequencies
`[0.1, 0.25, 0.45] * strength`, with the three section weights `0.6 sin`,
`0.4 cos` and the modulated `0.3 sin(angle + 0.7) * cos(0.5 angle)`. -/
def baroDriftCurve (env : Env) (strength : ℚ) (tnorm phases : List ℚ) : List ℚ :=
  tnorm.map (fun x =>
    let a0 := 2 * env.pi * (1/10 * strength) * x + elt phases 0
    let a1 := 2 * env.pi * (1/4 * strength) * x + elt phases 1
    let a2 := 2 * env.pi * (9/20 * strength) * x + elt phases 2
    6/10 * env.sin a0 + 4/10 * env.cos a1
      + 3/10 * env.sin (a2 + 7/10) * env.cos (1/2 * a2))

/-- One transient anomaly of `veil_barometer`: center in `[5, max(6, n-5))`,
window length in `[15, 60)` truncated at `n` (skipped when empty), a
`bump`/`dip`/`tilted` shape, and an amplitude `(0.5 + 0.8 u) · std ·
strength`. -/
def baroAnomStep (n : ℕ) (std strength : ℚ) (p : List ℚ) (rng : Rng) :
    List ℚ × Rng :=
  let ce := rng.integers 5 (max 6 ((n : ℤ) - 5))
  let center := ce.1
  let sp := ce.2.integers 15 60
  let endI : ℤ := min (n : ℤ) (center + sp.1)
  if endI ≤ center then (p, sp.2)
  else
    let wlen : ℕ := (endI - center).toNat
    let base := linspace 0 1 wlen
    let sh := sp.2.chooseStr ["bump", "dip", "tilted"]
    let shape :=
      if sh.1 = "bump" then base.map (fun b => b * (1 - b) * 4)
      else if sh.1 = "dip" then base.map (fun b => -(b * (1 - b) * 4))
      else base.map (fun b => (b - 1/2) * 2)
    let u := sh.2.random
    let amp := (1/2 + 4/5 * u.1) * std * strength
    (sliceAdd p center.toNat (smulL amp shape), u.2)

/-- `veil_barometer(baro, strength)`. -/
def veil_barometer (env : Env) (baro : Sample) (strength : ℚ) (g : GState) :
    Except VeilError Sample × GState :=
  let missing := missingOf ["t", "pressure"] baro
  if missing ≠ [] then (.error (.missingKeys "veil_barometer" missing), g)
  else
    let veiled := copyF32 baro
    let t := getD veiled "t"
    let p := getD veiled "pressure"
    let n := t.length
    if n = 0 then (.ok veiled, g)
    else
      let rg := get_rng g
      let g1 := rg.2
      let span := max (listMax p - listMin p) (1/1000)
      let std := max (stdL env p) (1/1000)
      let tnorm := tNorm t
      let ph := rg.1.uniformVec 0 (2 * env.pi) 3
      let st := ph.2.normalVec 0 (1/500 * strength) n
      let drift := addL (baroDriftCurve env strength tnorm ph.1) (cumsum st.1)
      let driftScale := 3/100 * span
      let p1 := addL p (smulL driftScale drift)
      let ji := st.2.integers 0 3
      let count := baroAnomalyCount strength ji.1
      let an := iterateDraws (baroAnomStep n std strength) count.toNat p1 ji.2
      let noiseSigma := 1/100 * span * strength
      let ep := an.2.uniform 0 (2 * env.pi)
      let envC := tnorm.map (fun x => 1/2 + 1/2 * env.sin (2 * env.pi * (1/20) * x + ep.1))
      let no := ep.2.normalByVec (smulL noiseSigma envC)
      let p2 := addL an.1 no.1
      (.ok (setA veiled "pressure" ⟨.f32, 1, p2⟩), putRng g1 no.2)

/-! ## `rf.py` -/

/-- The burst count of `veil_rf`:
`max(int(3 * strength) + rng.integers(0, 4), 1)`. -/
def rfBurstCount (strength : ℚ) (jit : ℤ) : ℤ :=
  max (pyInt (3 * strength) + jit) 1

/-- The multi-frequency baseline warp of `veil_rf`: frequencies
`[0.15, 0.4, 0.8] * strength` with weights `0.7 sin`, `0.5 cos` and
`0.4 sin(angle + 0.6) * cos(0.4 angle)`. -/
def rfWarpCurve (env : Env) (strength : ℚ) (tnorm phases : List ℚ) : List ℚ :=
  tnorm.map (fun x =>
    let a0 := 2 * env.pi * (3/20 * strength) * x + elt phases 0
    let a1 := 2 * env.pi * (2/5 * strength) * x + elt phases 1
    let a2 := 2 * env.pi * (4/5 * strength) * x + elt phases 2
    7/10 * env.sin a0 + 1/2 * env.cos a1
      + 2/5 * env.sin (a2 + 3/5) * env.cos (2/5 * a2))

/-- One interference burst of `veil_rf`: center in `[5, max(6, n-5))`, window
length in `[15, 80)`, a `spike_train`/`jam_block`/`notch` pattern (the spike
train draws one uniform per window sample and thresholds at `0.6`), and an
amplitude `(1 + 1.5 u) · std · strength`. -/
def rfBurstStep (n : ℕ) (std strength : ℚ) (power : List ℚ) (rng : Rng) :
    List ℚ × Rng :=
  let ce := rng.integers 5 (max 6 ((n : ℤ) - 5))
  let center := ce.1
  let sp := ce.2.integers 15 80
  let endI : ℤ := min (n : ℤ) (center + sp.1)
  if endI ≤ center then (power, sp.2)
  else
    let wlen : ℕ := (endI - center).toNat
    let base := linspace 0 1 wlen
    let sh := sp.2.chooseStr ["spike_train", "jam_block", "notch"]
    let shr : List ℚ × Rng :=
      if sh.1 = "spike_train" then
        let us := sh.2.randomVec wlen
        let spikes := us.1.map (fun u => if 3/5 < u then (1 : ℚ) else 0)
        ((List.range wlen).map (fun i => elt spikes i * (elt base i * (1 - elt base i) * 4)),
         us.2)
      else if sh.1 = "jam_block" then
        (base.map (fun b => b * (1 - b) * 4), sh.2)
      else
        (base.map (fun b => -(b * (1 - b) * 4)), sh.2)
    let u := shr.2.random
    let amp := (1 + 3/2 * u.1) * std * strength
    (sliceAdd power center.toNat (smulL amp shr.1), u.2)

/-- `veil_rf(rf, strength)`. -/
def veil_rf (env : Env) (rf : Sample) (strength : ℚ) (g : GState) :
    Except VeilError Sample × GState :=
  let missing := missingOf ["t", "power"] rf
  if missing ≠ [] then (.error (.missingKeys "veil_rf" missing), g)
  else
    let veiled := copyF32 rf
    let t := getD veiled "t"
    let power := getD veiled "power"
    let n := t.length
    if n = 0 then (.ok veiled, g)
    else
      let rg := get_rng g
      let g1 := rg.2
      let span := max (listMax power - listMin power) (1/1000)
      let std := max (stdL env power) (1/1000)
      let tnorm := tNorm t
      let ph := rg.1.uniformVec 0 (2 * env.pi) 3
      let st := ph.2.normalVec 0 (1/100 * strength) n
      let warp := addL (rfWarpCurve env strength tnorm ph.1) (cumsum st.1)
      let warpScale := 1/5 * span
      let p1 := addL power (smulL warpScale warp)
      let ji := st.2.integers 0 4
      let count := rfBurstCount strength ji.1
      let bu := iterateDraws (rfBurstStep n std strength) count.toNat p1 ji.2
      let noiseSigma := 1/20 * span * strength
      let ep := bu.2.uniform 0 (2 * env.pi)
      let envC := tnorm.map (fun x => 2/5 + 3/5 * |env.sin (2 * env.pi * (7/100) * x + ep.1)|)
      let no := ep.2.normalByVec (smulL noiseSigma envC)
      let p2 := addL bu.1 no.1
      (.ok (setA veiled "power" ⟨.f32, 1, p2⟩), putRng g1 no.2)

/-! ## `magnetometer.py` -/

/-- The anomaly count of `veil_magnetometer`:
`max(int(4 * strength) + rng.integers(0, 3), 1)`. -/
def magAnomalyCount (strength : ℚ) (jit : ℤ) : ℤ :=
  max (pyInt (4 * strength) + jit) 1

/-- The three channel values (x, y, z) of a magnetometer anomaly / jitter
state. -/
structure Mag3 where
  mx : List ℚ
  my : List ℚ
  mz : List ℚ
  deriving DecidableEq

/-- One frequency term of the magnetometer bias drift: a per-frequency random
axis weight vector drawn as 3 normals and normalised by
`max(norm, 1e-6)`, contributing `w0 sin(angle)`, `w1 cos(angle)` and
`w2 sin(angle + 0.5)` to the three axes. -/
def magDriftTerm (env : Env) (freq : ℚ) (tnorm : List ℚ) (phase : ℚ)
    (d : Mag3) (rng : Rng) : Mag3 × Rng :=
  let wr := rng.normalVec 0 1 3
  let wraw := wr.1
  let wn := max (env.sqrt ((elt wraw 0) ^ 2 + (elt wraw 1) ^ 2 + (elt wraw 2) ^ 2))
      (1/1000000)
  let w0 := elt wraw 0 / wn
  let w1 := elt wraw 1 / wn
  let w2 := elt wraw 2 / wn
  ({ mx := addL d.mx (tnorm.map (fun x => w0 * env.sin (2 * env.pi * freq * x + phase)))
     my := addL d.my (tnorm.map (fun x => w1 * env.cos (2 * env.pi * freq * x + phase)))
     mz := addL d.mz (tnorm.map (fun x => w2 * env.sin (2 * env.pi * freq * x + phase + 1/2))) },
   wr.2)

/-- One local anomaly of `veil_magnetometer`: center in `[5, max(6, n-5))`,
window length in `[8, 40)`, a `bump`/`ramp`/`asym_bump` shape, a random
normalised 3-D direction, and an amplitude `(0.5 + 0.5 u) · std · strength`
distributed over the three axes by the direction components. -/
def magAnomStep (env : Env) (n : ℕ) (std strength : ℚ) (m : Mag3) (rng : Rng) :
    Mag3 × Rng :=
  let ce := rng.integers 5 (max 6 ((n : ℤ) - 5))
  let center := ce.1
  let sp := ce.2.integers 8 40
  let endI : ℤ := min (n : ℤ) (center + sp.1)
  if endI ≤ center then (m, sp.2)
  else
    let wlen : ℕ := (endI - center).toNat
    let base := linspace 0 1 wlen
    let sh := sp.2.chooseStr ["bump", "ramp", "asym_bump"]
    let shape :=
      if sh.1 = "bump" then base.map (fun b => b * (1 - b) * 4)
      else if sh.1 = "ramp" then base
      else base.map (fun b => b * env.exp (-2 * b))
    let dr := sh.2.normalVec 0 1 3
    let draw := dr.1
    let dn := max (env.sqrt ((elt draw 0) ^ 2 + (elt draw 1) ^ 2 + (elt draw 2) ^ 2))
        (1/1000000)
    let u := dr.2.random
    let amp := (1/2 + 1/2 * u.1) * std * strength
    ({ mx := sliceAdd m.mx center.toNat (smulL (elt draw 0 / dn * amp) shape)
       my := sliceAdd m.my center.toNat (smulL (elt draw 1 / dn * amp) shape)
       mz := sliceAdd m.mz center.toNat (smulL (elt draw 2 / dn * amp) shape) },
     u.2)

/-- `veil_magnetometer(mag, strength)`. -/
def veil_magnetometer (env : Env) (mag : Sample) (strength : ℚ) (g : GState) :
    Except VeilError Sample × GState :=
  let missing := missingOf ["t", "mx", "my", "mz"] mag
  if missing ≠ [] then (.error (.missingKeys "veil_magnetometer" missing), g)
  else
    let veiled := copyF32 mag
    let t := getD veiled "t"
    let n := t.length
    if n = 0 then (.ok veiled, g)
    else
      let rg := get_rng g
      let g1 := rg.2
      let m0 : Mag3 := ⟨getD veiled "mx", getD veiled "my", getD veiled "mz"⟩
      let stacked := m0.mx ++ m0.my ++ m0.mz
      let span := max (listMax stacked - listMin stacked) (1/1000)
      let std := max (stdL env stacked) (1/1000)
      let tnorm := tNorm t
      let ph := rg.1.uniformVec 0 (2 * env.pi) 3
      let zero3 : Mag3 := ⟨List.replicate n 0, List.replicate n 0, List.replicate n 0⟩
      let d1 := magDriftTerm env (3/10 * strength) tnorm (elt ph.1 0) zero3 ph.2
      let d2 := magDriftTerm env (7/10 * strength) tnorm (elt ph.1 1) d1.1 d1.2
      let d3 := magDriftTerm env (13/10 * strength) tnorm (elt ph.1 2) d2.1 d2.2
      let cm := d3.2.normalMat3 (1/100 * strength) n
      let d : Mag3 := ⟨addL d3.1.mx (cumsum cm.1.1), addL d3.1.my (cumsum cm.1.2.1),
                       addL d3.1.mz (cumsum cm.1.2.2)⟩
      let driftScale := 1/20 * span
      let m1 : Mag3 := ⟨addL m0.mx (smulL driftScale d.mx),
                        addL m0.my (smulL driftScale d.my),
                        addL m0.mz (smulL driftScale d.mz)⟩
      let ji := cm.2.integers 0 3
      let count := magAnomalyCount strength ji.1
      let an := iterateDraws (magAnomStep env n std strength) count.toNat m1 ji.2
      let jitterBase := 1/20 * std * strength
      let nx := an.2.normalVec 0 jitterBase n
      let ny := nx.2.normalVec 0 (jitterBase * 6/5) n
      let nz := ny.2.normalVec 0 (jitterBase * 4/5) n
      let m2 : Mag3 := ⟨addL an.1.mx nx.1, addL an.1.my ny.1, addL an.1.mz nz.1⟩
      let out1 := setA veiled "mx" ⟨.f32, 1, m2.mx⟩
      let out2 := setA out1 "my" ⟨.f32, 1, m2.my⟩
      let out3 := setA out2 "mz" ⟨.f32, 1, m2.mz⟩
      (.ok out3, putRng g1 nz.2)

/-! ## `ultrasonic.py` -/

/-- The event count of `veil_ultrasonic`:
`max(int(3 * strength) + rng.integers(0, 3), 1)`. -/
def ultraEventCount (strength : ℚ) (jit : ℤ) : ℤ :=
  max (pyInt (3 * strength) + jit) 1

/-- The two-frequency baseline of `veil_ultrasonic`: frequencies
`[0.2, 0.5] * strength` with weights `0.7 sin` and `0.5 cos`. -/
def ultraBaselineCurve (env : Env) (strength : ℚ) (tnorm phases : List ℚ) : List ℚ :=
  tnorm.map (fun x =>
    let a0 := 2 * env.pi * (1/5 * strength) * x + elt phases 0
    let a1 := 2 * env.pi * (1/2 * strength) * x + elt phases 1
    7/10 * env.sin a0 + 1/2 * env.cos a1)

/-- One dead-zone / phantom event of `veil_ultrasonic`: center in
`[5, max(6, n-5))`, window length in `[10, 60)`, and a blend of the current
values toward a target determined by the event kind (`dead_max`: `r_max +
0.1 span`; `dead_min`: `max(r_min - 0.1 span, 0)`; `phantom`: `r_min +
0.2 span`) weighted by a symmetric envelope. -/
def ultraEventStep (n : ℕ) (rmin rmax span : ℚ) (r : List ℚ) (rng : Rng) :
    List ℚ × Rng :=
  let ce := rng.integers 5 (max 6 ((n : ℤ) - 5))
  let center := ce.1
  let sp := ce.2.integers 10 60
  let endI : ℤ := min (n : ℤ) (center + sp.1)
  if endI ≤ center then (r, sp.2)
  else
    let wlen : ℕ := (endI - center).toNat
    let base := linspace 0 1 wlen
    let envelope := base.map (fun b => b * (1 - b) * 4)
    let ev := sp.2.chooseStr ["dead_max", "dead_min", "phantom"]
    let target :=
      if ev.1 = "dead_max" then rmax + 1/10 * span
      else if ev.1 = "dead_min" then max (rmin - 1/10 * span) 0
      else rmin + 1/5 * span
    (sliceBlend r center.toNat envelope target, ev.2)

/-- `veil_ultrasonic(us, strength)`. -/
def veil_ultrasonic (env : Env) (us : Sample) (strength : ℚ) (g : GState) :
    Except VeilError Sample × GState :=
  let missing := missingOf ["t", "range"] us
  if missing ≠ [] then (.error (.missingKeys "veil_ultrasonic" missing), g)
  else
    let veiled := copyF32 us
    let t := getD veiled "t"
    let r := getD veiled "range"
    let n := t.length
    if n = 0 then (.ok veiled, g)
    else
      let rg := get_rng g
      let g1 := rg.2
      let rmin := listMin r
      let rmax := listMax r
      let span := max (rmax - rmin) (1/1000)
      let _std := max (stdL env r) (1/1000)
      let tnorm := tNorm t
      let ph := rg.1.uniformVec 0 (2 * env.pi) 2
      let st := ph.2.normalVec 0 (1/200 * strength) n
      let baseline := addL (ultraBaselineCurve env strength tnorm ph.1) (cumsum st.1)
      let baselineScale := 1/10 * span
      let r1 := addL r (smulL baselineScale baseline)
      let ji := st.2.integers 0 3
      let count := ultraEventCount strength ji.1
      let ev := iterateDraws (ultraEventStep n rmin rmax span) count.toNat r1 ji.2
      let noiseSigma := 1/50 * span * strength
      let ep := ev.2.uniform 0 (2 * env.pi)
      let envC := tnorm.map (fun x => 3/5 + 2/5 * env.sin (2 * env.pi * (2/25) * x + ep.1))
      let no := ep.2.normalByVec (smulL noiseSigma envC)
      let r2 := addL ev.1 no.1
      let r3 := clipL 0 (rmax + 1/2 * span) r2
      (.ok (setA veiled "range" ⟨.f32, 1, r3⟩), putRng g1 no.2)

/-! ## `imu.py` -/

/-- The spike count of `veil_imu`: `int(6 * strength)` — no jitter and no
floor, unlike every other engine. -/
def imuSpikeCount (strength : ℚ) : ℤ :=
  pyInt (6 * strength)

/-- The six gyro/accel channels of the IMU spike state. -/
structure Imu6 where
  gx : List ℚ
  gy : List ℚ
  gz : List ℚ
  ax : List ℚ
  ay : List ℚ
  az : List ℚ
  deriving DecidableEq

/-- One fake impact spike of `veil_imu`: index in `[5, max(6, n-5))`, span in
`[3, 10)` truncated at `n`, one gyro amplitude chosen from
`{-1.8, -1.2, 1.2, 1.8}` (shared by `gx` and `gy`, the latter scaled by
`0.7`) and per-axis accelerometer amplitudes chosen from `{±4}`, `{±3}`,
`{±6}`. -/
def imuSpikeStep (n : ℕ) (v : Imu6) (rng : Rng) : Imu6 × Rng :=
  let ix := rng.integers 5 (max 6 ((n : ℤ) - 5))
  let sp := ix.2.integers 3 10
  let endI : ℤ := min (n : ℤ) (ix.1 + sp.1)
  let gs := sp.2.choose [-(9/5), -(6/5), 6/5, 9/5]
  let asx := gs.2.choose [-4, 4]
  let asy := asx.2.choose [-3, 3]
  let asz := asy.2.choose [-6, 6]
  let wlen := (endI - ix.1).toNat
  let c := ix.1.toNat
  ({ gx := sliceAdd v.gx c (List.replicate wlen gs.1)
     gy := sliceAdd v.gy c (List.replicate wlen (gs.1 * 7/10))
     gz := v.gz
     ax := sliceAdd v.ax c (List.replicate wlen asx.1)
     ay := sliceAdd v.ay c (List.replicate wlen asy.1)
     az := sliceAdd v.az c (List.replicate wlen asz.1) },
   asz.2)

/-- `veil_imu(imu, strength)`.  Note: unlike every other engine, this one
draws from a fresh `np.random.default_rng()` (OS entropy), not from the
shared seeded generator of `random_control.py`. -/
def veil_imu (imu : Sample) (strength : ℚ) (g : GState) :
    Except VeilError Sample × GState :=
  let missing := missingOf ["t", "gx", "gy", "gz", "ax", "ay", "az"] imu
  if missing ≠ [] then (.error (.missingKeys "veil_imu" missing), g)
  else
    let veiled := copyF32 imu
    let n := (getD veiled "t").length
    if n = 0 then (.ok veiled, g)
    else
      let rg := freshOsRng g
      let g1 := rg.2
      let v : Imu6 := ⟨getD veiled "gx", getD veiled "gy",
                       addL (getD veiled "gz") (linspace 0 (3/10 * strength) n),
                       addL (getD veiled "ax") (linspace 0 (1 * strength) n),
                       addL (getD veiled "ay") (linspace 0 (-(7/10) * strength) n),
                       getD veiled "az"⟩
      let sk := iterateDraws (imuSpikeStep n) (imuSpikeCount strength).toNat v rg.1
      let ngx := sk.2.normalVec 0 (1/20 * strength) n
      let ngy := ngx.2.normalVec 0 (1/20 * strength) n
      let ngz := ngy.2.normalVec 0 (1/20 * strength) n
      let nax := ngz.2.normalVec 0 (1/5 * strength) n
      let nay := nax.2.normalVec 0 (1/5 * strength) n
      let naz := nay.2.normalVec 0 (1/5 * strength) n
      let v2 : Imu6 := ⟨addL sk.1.gx ngx.1, addL sk.1.gy ngy.1, addL sk.1.gz ngz.1,
                        addL sk.1.ax nax.1, addL sk.1.ay nay.1, addL sk.1.az naz.1⟩
      let out1 := setA veiled "gx" ⟨.f32, 1, v2.gx⟩
      let out2 := setA out1 "gy" ⟨.f32, 1, v2.gy⟩
      let out3 := setA out2 "gz" ⟨.f32, 1, v2.gz⟩
      let out4 := setA out3 "ax" ⟨.f32, 1, v2.ax⟩
      let out5 := setA out4 "ay" ⟨.f32, 1, v2.ay⟩
      let out6 := setA out5 "az" ⟨.f32, 1, v2.az⟩
      (.ok out6, g1)

/-! ## `fusion.py` -/

/-- The common (shortest) length of the fusion input streams. -/
def minLen : Sample → ℕ
  | [] => 0
  | kv :: rest => rest.foldl (fun m kv' => min m kv'.2.data.length) kv.2.data.length

/-- The per-stream mixing step of `veil_fusion_timeseries`: per-stream span
and std (floored at `1e-3`), a random 3-vector of mixture weights normalised
by `max(norm, 1e-6)`, the blended latent, and the scale
`(0.2 span + 0.8 std) · strength`. -/
def fusionStep (env : Env) (strength : ℚ) (l1 l2 l3 : List ℚ) (base : Arr)
    (rng : Rng) : Arr × Rng :=
  let d := base.data
  let span := max (listMax d - listMin d) (1/1000)
  let std := max (stdL env d) (1/1000)
  let wr := rng.normalVec 0 1 3
  let wraw := wr.1
  let wn := max (env.sqrt ((elt wraw 0) ^ 2 + (elt wraw 1) ^ 2 + (elt wraw 2) ^ 2))
      (1/1000000)
  let latent := addL (addL (smulL (elt wraw 0 / wn) l1) (smulL (elt wraw 1 / wn) l2))
      (smulL (elt wraw 2 / wn) l3)
  let scale := (1/5 * span + 4/5 * std) * strength
  (⟨.f32, 1, addL d (smulL scale latent)⟩, wr.2)

/-- The per-stream loop of the fusion engine, in dict order. -/
def fusionLoop (env : Env) (strength : ℚ) (l1 l2 l3 : List ℚ) :
    Sample → Rng → Sample × Rng
  | [], rng => ([], rng)
  | kv :: rest, rng =>
      let a := fusionStep env strength l1 l2 l3 kv.2 rng
      let out := fusionLoop env strength l1 l2 l3 rest a.2
      ((kv.1, a.1) :: out.1, out.2)

/-- `veil_fusion_timeseries(sensors, strength)`. -/
def veil_fusion_timeseries (env : Env) (sensors : Sample) (strength : ℚ)
    (g : GState) : Except VeilError Sample × GState :=
  if sensors = [] then (.error .emptySensors, g)
  else
    match sensors.find? (fun kv => kv.2.ndim ≠ 1) with
    | some kv => (.error (.notOneD kv.1), g)
    | none =>
        let arrays := copyF32 sensors
        let n := minLen arrays
        if n = 0 then
          (.ok (arrays.map (fun kv => (kv.1, { kv.2 with data := ([] : List ℚ) }))), g)
        else
          let arrays2 := arrays.map (fun kv => (kv.1, { kv.2 with data := kv.2.data.take n }))
          let rg := get_rng g
          let g1 := rg.2
          let t := linspace 0 1 n
          let st := rg.1.normalVec 0 (1/20 * strength) n
          let latent1 := cumsum st.1
          let p1 := st.2.uniform 0 (2 * env.pi)
          let p2 := p1.2.uniform 0 (2 * env.pi)
          let latent2 := t.map (fun x =>
            7/10 * env.sin (2 * env.pi * (3/10 * strength) * x + p1.1)
              + 1/2 * env.cos (2 * env.pi * (4/5 * strength) * x + p2.1))
          let nr := p2.2.normalVec 0 1 n
          let latent3 := movingAvg5 nr.1
          let outs := fusionLoop env strength latent1 latent2 latent3 arrays2 nr.2
          (.ok outs.1, putRng g1 outs.2)

/-! ## `profiles.py` -/

/-- One profile entry of a parsed `config/profiles.yaml`: an optional `base`
and a `sensors` table (looked up by sensor name, falling back to its
`"default"` entry). -/
structure ProfileCfg where
  base : Option ℚ
  sensors : List (String × ℚ)
  deriving DecidableEq

/-- `_BASE_PROFILES`. -/
def BASE_PROFILES : List (String × ℚ) :=
  [("light", 1/2), ("privacy", 1), ("ghost", 3/2), ("chaos", 2)]

/-- `_SENSOR_PROFILE_TWEAKS`. -/
def SENSOR_PROFILE_TWEAKS : List (String × List (String × ℚ)) :=
  [("lidar", [("ghost", 6/5), ("chaos", 13/10)]),
   ("rf", [("ghost", 11/10), ("chaos", 13/10)]),
   ("ultrasonic", [("chaos", 9/10)])]

/-- Python `str.strip()`: drop whitespace at both ends (on the character
list, where Lean's kernel can evaluate it). -/
def pyStrip (cs : List Char) : List Char :=
  ((cs.dropWhile Char.isWhitespace).reverse.dropWhile Char.isWhitespace).reverse

/-- Python `name.strip().lower()` (ASCII case folding). -/
def normName (s : String) : String :=
  ⟨(pyStrip s.data).map Char.toLower⟩

/-- The error raised by `get_profile_strength`: a `KeyError` whose message
interpolates the unknown profile name and the list of valid built-in profile
names (and refers to `config/profiles.yaml` for the rest). -/
inductive ProfileError where
  | unknownProfile (profile : String) (validBuiltIns : List String)
  deriving DecidableEq

/-- The YAML branch of `get_profile_strength`:
`base = cfg.get("base", _BASE_PROFILES.get(p, 1.0))` times
`sensors.get(s, sensors.get("default", 1.0))`. -/
def yamlStrength (cfg : ProfileCfg) (p s : String) : ℚ :=
  let base := cfg.base.getD ((BASE_PROFILES.lookup p).getD 1)
  let factor := (cfg.sensors.lookup s).getD ((cfg.sensors.lookup "default").getD 1)
  base * factor

/-- `get_profile_strength(profile, sensor_name)`, with the loaded
`config/profiles.yaml` contents (empty when the file is missing, YAML is
unavailable, or parsing failed — the silent-fallback paths) passed
explicitly. -/
def get_profile_strength (yamlProfiles : List (String × ProfileCfg))
    (profile sensorName : String) : Except ProfileError ℚ :=
  let p := normName profile
  let s := normName sensorName
  match yamlProfiles.lookup p with
  | some cfg => .ok (yamlStrength cfg p s)
  | none =>
      match BASE_PROFILES.lookup p with
      | some base =>
          let factor :=
            match SENSOR_PROFILE_TWEAKS.lookup s with
            | some tweakTable => (tweakTable.lookup p).getD 1
            | none => 1
          .ok (base * factor)
      | none => .error (.unknownProfile profile (BASE_PROFILES.map Prod.fst))

/-! ## Concrete fixtures for closed witnesses and counterexamples -/

/-- A fresh process state whose OS entropy is the all-zero stream. -/
def gOsZero : GState := ⟨none, none, fun _ _ => 0, 0⟩

/-- A fresh process state whose OS entropy is the all-one stream. -/
def gOsOne : GState := ⟨none, none, fun _ _ => 1, 0⟩

/-- A process state whose shared generator is initialised with the all-zero
stream. -/
def gZeroRng : GState := ⟨some ⟨fun _ => 0, 0⟩, none, fun _ _ => 0, 0⟩

/-- An all-zero float64 1-D array of length `n`. -/
def zerosArr (n : ℕ) : Arr := ⟨.f64, 1, List.replicate n 0⟩

/-- A one-sample IMU input with all channels zero. -/
def imuFix1 : Sample :=
  [("t", ⟨.f64, 1, [0]⟩),
   ("gx", zerosArr 1), ("gy", zerosArr 1), ("gz", zerosArr 1),
   ("ax", zerosArr 1), ("ay", zerosArr 1), ("az", zerosArr 1)]

/-- A two-sample IMU input with all channels zero (`ax` span `0`). -/
def imuFix2 : Sample :=
  [("t", ⟨.f64, 1, [0, 1]⟩),
   ("gx", zerosArr 2), ("gy", zerosArr 2), ("gz", zerosArr 2),
   ("ax", zerosArr 2), ("ay", zerosArr 2), ("az", zerosArr 2)]

/-- The same two-sample IMU input with `ax = [0, 1000]` (`ax` span `1000`). -/
def imuFix2Wide : Sample :=
  [("t", ⟨.f64, 1, [0, 1]⟩),
   ("gx", zerosArr 2), ("gy", zerosArr 2), ("gz", zerosArr 2),
   ("ax", ⟨.f64, 1, [0, 1000]⟩), ("ay", zerosArr 2), ("az", zerosArr 2)]

/-- Extract one output channel of a veil result (empty on error). -/
def okChan (r : Except VeilError Sample) (k : String) : List ℚ :=
  match r with
  | .ok s => getD s k
  | .error _ => []

/-- The `ax` residual (veiled minus trusted) of one `veil_imu` run at
strength `1` from a given process state. -/
def imuResidAx (s : Sample) (g : GState) : List ℚ :=
  List.zipWith (· - ·) (okChan (veil_imu s 1 g).1 "ax") (getD s "ax")

/-- A single-sample ultrasonic input whose only range reading is negative. -/
def usFixNeg : Sample := [("t", ⟨.f64, 1, [0]⟩), ("range", ⟨.f64, 1, [-10]⟩)]

/-- A single-sample barometer input at a constant plausible pressure. -/
def baroFix : Sample := [("t", ⟨.f64, 1, [0]⟩), ("pressure", ⟨.f64, 1, [1013]⟩)]

/-- A single-sample barometer input whose time stamp `0.1` is not
float32-representable. -/
def baroFixTenth : Sample :=
  [("t", ⟨.f64, 1, [1/10]⟩), ("pressure", ⟨.f64, 1, [0]⟩)]

/-- A generator stream that is zero except for the single standard-normal
draw feeding the barometer's cumulative drift step on a one-sample input
(position 3), where it is large and negative, scaled to push the output
pressure below `-B`. -/
def baroProbeStream (B : ℚ) : ℕ → ℚ :=
  fun i => if i = 3 then -(B + 1014) * 50000000 / 3 else 0

/-- A process state seeded with `baroProbeStream B`. -/
def gBaroProbe (B : ℚ) : GState :=
  ⟨some ⟨baroProbeStream B, 0⟩, none, fun _ _ => 0, 0⟩

/-- The same keys, each mapped to an empty float32 array: the required
result of every veil operation on an all-empty input. -/
def emptyF32 (s : Sample) : Sample :=
  s.map (fun kv => (kv.1, ⟨.f32, kv.2.ndim, []⟩))

/-- A sample carrying every channel any engine requires, each of length 1. -/
def allKeysOneFix : Sample :=
  [("t", ⟨.f64, 1, [0]⟩), ("pressure", ⟨.f64, 1, [0]⟩), ("power", ⟨.f64, 1, [0]⟩),
   ("mx", ⟨.f64, 1, [0]⟩), ("my", ⟨.f64, 1, [0]⟩), ("mz", ⟨.f64, 1, [0]⟩),
   ("range", ⟨.f64, 1, [0]⟩), ("gx", ⟨.f64, 1, [0]⟩), ("gy", ⟨.f64, 1, [0]⟩),
   ("gz", ⟨.f64, 1, [0]⟩), ("ax", ⟨.f64, 1, [0]⟩), ("ay", ⟨.f64, 1, [0]⟩),
   ("az", ⟨.f64, 1, [0]⟩)]

/-- An all-empty input carrying the required channels of every sensor kind
at once (so one fixture discharges every engine's validation). -/
def allKeysEmptyFix : Sample :=
  [("t", ⟨.f64, 1, []⟩), ("pressure", ⟨.f64, 1, []⟩), ("power", ⟨.f64, 1, []⟩),
   ("mx", ⟨.f64, 1, []⟩), ("my", ⟨.f64, 1, []⟩), ("mz", ⟨.f64, 1, []⟩),
   ("range", ⟨.f64, 1, []⟩), ("gx", ⟨.f64, 1, []⟩), ("gy", ⟨.f64, 1, []⟩),
   ("gz", ⟨.f64, 1, []⟩), ("ax", ⟨.f64, 1, []⟩), ("ay", ⟨.f64, 1, []⟩),
   ("az", ⟨.f64, 1, []⟩)]

/-- The upper clip bound `r_max + 0.5 · span` applied by `veil_ultrasonic`
to its final range channel, computed from the float32 copy of the input. -/
def ultraClipHi (us : Sample) : ℚ :=
  listMax (getD (copyF32 us) "range") +
    1/2 * max (listMax (getD (copyF32 us) "range") - listMin (getD (copyF32 us) "range"))
      (1/1000)

end DataVeil

/-! # Theorems -/

namespace DataVeil

/-! ## Basic arithmetic lemmas -/

/-- Python truncation agrees with the floor on nonnegative rationals. -/
theorem pyInt_eq_floor {q : ℚ} (h : 0 ≤ q) : pyInt q = ⌊q⌋ := by
  rw [pyInt, Int.tdiv_eq_ediv (Rat.num_nonneg.mpr h) (Int.ofNat_nonneg _), Rat.floor_def]

/-- `pyInt` is monotone on nonnegative rationals. -/
theorem pyInt_mono {a b : ℚ} (ha : 0 ≤ a) (hab : a ≤ b) : pyInt a ≤ pyInt b := by
  rw [pyInt_eq_floor ha, pyInt_eq_floor (ha.trans hab)]
  exact Int.floor_le_floor hab

/-- `pyInt` on integer values. -/
theorem pyInt_intCast (n : ℤ) : pyInt (n : ℚ) = n := by
  rw [pyInt, Rat.num_intCast, Rat.den_intCast]
  exact Int.tdiv_one n

/-! ## Evaluation lemmas for `f32` -/

/-- Uniqueness characterisation of the base-2 integer logarithm. -/
theorem int_log2_eq {r : ℚ} {e : ℤ} (h0 : 0 < r) (h1 : (2 : ℚ) ^ e ≤ r)
    (h2 : r < (2 : ℚ) ^ (e + 1)) : Int.log 2 r = e := by
  have ha := Int.zpow_log_le_self (b := 2) (R := ℚ) (by norm_num) h0
  have hb := Int.lt_zpow_succ_log_self (b := 2) (R := ℚ) (by norm_num) r
  have hc : Int.log 2 r < e + 1 :=
    (zpow_lt_zpow_iff_right₀ (by norm_num : (1 : ℚ) < 2)).mp
      (by push_cast at ha ⊢; linarith)
  have hd : e < Int.log 2 r + 1 :=
    (zpow_lt_zpow_iff_right₀ (by norm_num : (1 : ℚ) < 2)).mp
      (by push_cast at hb ⊢; linarith)
  omega

/-- Half-even rounding fixes the integers. -/
theorem roundHalfEven_intCast (n : ℤ) : roundHalfEven (n : ℚ) = n := by
  simp [roundHalfEven]

/-- `f32 0 = 0`. -/
theorem f32_zero : f32 0 = 0 := by
  simp [f32]

/-- Binary32 rounding fixes every integer of magnitude below `2^24`
(in particular every integer channel value used in the fixtures). -/
theorem f32_int_small (n : ℤ) (h : n.natAbs < 2 ^ 24) : f32 (n : ℚ) = n := by
  rcases eq_or_ne n 0 with rfl | hn
  · simpa using f32_zero
  · rw [f32, if_neg (by exact_mod_cast hn)]
    have habs : |(n : ℚ)| = (n.natAbs : ℚ) := by
      rw [Int.cast_natAbs, Int.cast_abs]
    have hlog : Int.log 2 |(n : ℚ)| = Nat.log 2 n.natAbs := by
      rw [habs, Int.log_natCast]
    set L := Nat.log 2 n.natAbs with hL
    have hL23 : L ≤ 23 := by
      have : L < 24 := Nat.log_lt_of_lt_pow (Int.natAbs_ne_zero.mpr hn) h
      omega
    have hmax : max ((L : ℤ) - 23) (-149) = (L : ℤ) - 23 := by
      apply max_eq_left
      omega
    rw [hlog, hmax]
    show (roundHalfEven ((n : ℚ) / 2 ^ ((L : ℤ) - 23)) : ℚ) * 2 ^ ((L : ℤ) - 23) = (n : ℚ)
    set k : ℕ := 23 - L with hk
    have hke : ((L : ℤ) - 23) = -(k : ℤ) := by
      rw [hk]
      push_cast [Nat.cast_sub hL23]
      ring
    have hzp : (2 : ℚ) ^ ((L : ℤ) - 23) = ((2 : ℚ) ^ k)⁻¹ := by
      rw [hke, zpow_neg, zpow_natCast]
    have hdiv : (n : ℚ) / (2 : ℚ) ^ ((L : ℤ) - 23) = ((n * 2 ^ k : ℤ) : ℚ) := by
      rw [hzp]
      push_cast
      field_simp
    rw [hdiv, roundHalfEven_intCast, hzp]
    push_cast
    field_simp

/-- `f32` fixes `1000` (simp-usable numeral form). -/
theorem f32_thousand : f32 1000 = 1000 := by
  exact_mod_cast f32_int_small 1000 (by norm_num)

/-- `f32` fixes `-10` (simp-usable numeral form). -/
theorem f32_neg_ten : f32 (-10) = -10 := by
  exact_mod_cast f32_int_small (-10) (by norm_num)

/-- `f32` fixes `1013` (simp-usable numeral form). -/
theorem f32_baro : f32 1013 = 1013 := by
  exact_mod_cast f32_int_small 1013 (by norm_num)

/-- `f32` fixes `1` (simp-usable numeral form). -/
theorem f32_one : f32 1 = 1 := by
  exact_mod_cast f32_int_small 1 (by norm_num)

/-- The binary32 rounding of `0.1`: `13421773 / 2^27 ≠ 1/10`. -/
theorem f32_tenth : f32 (1/10) = 13421773 / 134217728 := by
  rw [f32, if_neg (by norm_num)]
  have habs : |(1/10 : ℚ)| = 1/10 := by norm_num
  have hlog : Int.log 2 |(1/10 : ℚ)| = -4 := by
    rw [habs]
    exact int_log2_eq (by norm_num) (by norm_num) (by norm_num)
  rw [hlog]
  have hmax : max ((-4 : ℤ) - 23) (-149) = -27 := by norm_num
  rw [hmax]
  show (roundHalfEven ((1/10 : ℚ) / 2 ^ (-27 : ℤ)) : ℚ) * 2 ^ (-27 : ℤ) =
    13421773 / 134217728
  have hdiv : (1/10 : ℚ) / (2 : ℚ) ^ (-27 : ℤ) = 67108864 / 5 := by
    norm_num
  rw [hdiv]
  have hr : roundHalfEven (67108864 / 5 : ℚ) = 13421773 := by
    rw [roundHalfEven]
    have hfl : ⌊(67108864 / 5 : ℚ)⌋ = 13421772 := by norm_num
    rw [hfl]
    norm_num
  rw [hr]
  norm_num

/-! ## Dictionary lemmas -/

/-- Lookup after the float32 copy comprehension. -/
theorem lookup_copyF32 (s : Sample) (k : String) :
    (copyF32 s).lookup k = (s.lookup k).map asarrayF32 := by
  induction s with
  | nil => rfl
  | cons kv rest ih =>
      rcases kv with ⟨k1, v1⟩
      rcases hb : (k == k1) with _ | _
      · simpa [copyF32, List.lookup, hb] using ih
      · simp [copyF32, List.lookup, hb]

/-- The float32 copy has the same keys present. -/
theorem hasKey_copyF32 (s : Sample) (k : String) :
    hasKey (copyF32 s) k = hasKey s k := by
  rw [hasKey, hasKey, lookup_copyF32]
  cases s.lookup k <;> rfl

/-- The float32 copy preserves the key list. -/
theorem keysOf_copyF32 (s : Sample) : keysOf (copyF32 s) = keysOf s := by
  simp [keysOf, copyF32]

/-- Assignment preserves the key list. -/
theorem keysOf_setA (s : Sample) (k : String) (v : Arr) :
    keysOf (setA s k v) = keysOf s := by
  induction s with
  | nil => rfl
  | cons kv rest ih =>
      by_cases h : kv.1 = k <;> simp [keysOf, setA, h] <;>
        simpa [keysOf, setA] using ih

/-- Unfolding `setA` over a cons cell. -/
theorem setA_cons (k1 : String) (v1 : Arr) (rest : Sample) (k : String) (v : Arr) :
    setA ((k1, v1) :: rest) k v =
      (if k1 = k then (k1, v) else (k1, v1)) :: setA rest k v := rfl

/-- Reading back an assigned key that was present. -/
theorem getD_setA_self (s : Sample) (k : String) (v : Arr) (h : hasKey s k = true) :
    getD (setA s k v) k = v.data := by
  induction s with
  | nil => simp [hasKey, List.lookup] at h
  | cons kv rest ih =>
      rcases kv with ⟨k1, v1⟩
      rw [setA_cons]
      by_cases hk : k1 = k
      · subst hk
        rw [if_pos rfl]
        simp [getD, getA, List.lookup]
      · rw [if_neg hk]
        have hb : (k == k1) = false := beq_eq_false_iff_ne.mpr (Ne.symm hk)
        have h' : hasKey rest k = true := by
          simpa [hasKey, List.lookup, hb] using h
        have hres := ih h'
        simpa [getD, getA, List.lookup, hb] using hres

/-- Reading an unassigned key after an assignment. -/
theorem lookup_setA_ne (s : Sample) (k k' : String) (v : Arr) (h : k ≠ k') :
    (setA s k' v).lookup k = s.lookup k := by
  induction s with
  | nil => rfl
  | cons kv rest ih =>
      rcases kv with ⟨k1, v1⟩
      rw [setA_cons]
      by_cases hk : k1 = k'
      · subst hk
        rw [if_pos rfl]
        have hb : (k == k1) = false := beq_eq_false_iff_ne.mpr h
        simp [List.lookup, hb, ih]
      · rw [if_neg hk]
        rcases hb : (k == k1) with _ | _
        · simp [List.lookup, hb, ih]
        · simp [List.lookup, hb]

/-- A required key of a validated sample is present. -/
theorem hasKey_of_missingOf_nil {req : List String} {s : Sample} {k : String}
    (h : missingOf req s = []) (hk : k ∈ req) : hasKey s k = true := by
  rw [missingOf, List.filter_eq_nil_iff] at h
  simpa using h k hk

/-- A successful lookup produces an entry of the dict. -/
theorem lookup_mem {s : Sample} {k : String} {v : Arr} (h : s.lookup k = some v) :
    (k, v) ∈ s := by
  induction s with
  | nil => simp [List.lookup] at h
  | cons kv rest ih =>
      rcases kv with ⟨k1, v1⟩
      rcases hb : (k == k1) with _ | _
      · rw [List.lookup, hb] at h
        exact List.mem_cons_of_mem _ (ih h)
      · rw [List.lookup, hb] at h
        obtain rfl := beq_iff_eq.mp hb
        obtain rfl : v1 = v := by simpa using h
        exact List.mem_cons_self _ _

/-- Channel data after the float32 copy. -/
theorem getD_copyF32 (s : Sample) (k : String) :
    getD (copyF32 s) k = (getD s k).map f32 := by
  rw [getD, getD, getA, getA, lookup_copyF32]
  cases s.lookup k <;> simp [asarrayF32]

/-- A present channel of an all-empty sample is empty. -/
theorem getD_eq_nil_of_empty {s : Sample} {k : String} (hk : hasKey s k = true)
    (h : ∀ kv ∈ s, kv.2.data = []) : getD s k = [] := by
  rw [hasKey] at hk
  rcases hl : s.lookup k with _ | v
  · rw [hl] at hk
    simp at hk
  · have := h (k, v) (lookup_mem hl)
    rw [getD, getA, hl]
    simpa using this

/-- The shortest length of a nonempty all-empty stream set is `0`. -/
theorem minLen_eq_zero {s : Sample} (hne : s ≠ []) (h : ∀ kv ∈ s, kv.2.data = []) :
    minLen s = 0 := by
  rcases s with _ | ⟨kv, rest⟩
  · exact absurd rfl hne
  · rw [minLen]
    have h0 : kv.2.data.length = 0 := by
      rw [h kv (List.mem_cons_self _ _)]
      rfl
    have : ∀ r : List (String × Arr), (∀ kv' ∈ r, kv'.2.data = []) → ∀ a : ℕ,
        r.foldl (fun m kv' => min m kv'.2.data.length) a ≤ a := by
      intro r
      induction r with
      | nil => intro _ a; exact le_rfl
      | cons kv' rest' ih =>
          intro hr a
          rw [List.foldl_cons]
          exact le_trans (ih (fun x hx => hr x (List.mem_cons_of_mem _ hx)) _)
            (min_le_left _ _)
    have hle := this rest (fun x hx => h x (List.mem_cons_of_mem _ hx)) kv.2.data.length
    omega

/-! ## C8: anomaly counts -/

/-- **C8 (amended)**: for the barometer, magnetometer, RF and ultrasonic veil
operations the per-call anomaly/event count is `int(k · strength)` plus the
drawn jitter, floored at 1; `veil_imu` draws `int(6 · strength)` spikes with
no jitter and no floor.  All five counts are monotone in strength for every
fixed jitter value (hence the expected count is non-decreasing in
strength). -/
theorem c8_anomaly_counts_monotone_and_floored :
    (∀ (s : ℚ) (jit : ℤ),
      baroAnomalyCount s jit = max (pyInt (3 * s) + jit) 1 ∧
      magAnomalyCount s jit = max (pyInt (4 * s) + jit) 1 ∧
      rfBurstCount s jit = max (pyInt (3 * s) + jit) 1 ∧
      ultraEventCount s jit = max (pyInt (3 * s) + jit) 1 ∧
      imuSpikeCount s = pyInt (6 * s)) ∧
    (∀ (s : ℚ) (jit : ℤ), 1 ≤ baroAnomalyCount s jit ∧ 1 ≤ magAnomalyCount s jit ∧
      1 ≤ rfBurstCount s jit ∧ 1 ≤ ultraEventCount s jit) ∧
    (∀ (s₁ s₂ : ℚ) (jit : ℤ), 0 ≤ s₁ → s₁ ≤ s₂ →
      baroAnomalyCount s₁ jit ≤ baroAnomalyCount s₂ jit ∧
      magAnomalyCount s₁ jit ≤ magAnomalyCount s₂ jit ∧
      rfBurstCount s₁ jit ≤ rfBurstCount s₂ jit ∧
      ultraEventCount s₁ jit ≤ ultraEventCount s₂ jit ∧
      imuSpikeCount s₁ ≤ imuSpikeCount s₂) := by
  refine ⟨fun s jit => ⟨rfl, rfl, rfl, rfl, rfl⟩,
    fun s jit => ⟨le_max_right _ _, le_max_right _ _, le_max_right _ _, le_max_right _ _⟩,
    fun s₁ s₂ jit h1 h12 => ?_⟩
  have h3 : pyInt (3 * s₁) ≤ pyInt (3 * s₂) :=
    pyInt_mono (by linarith) (by linarith)
  have h4 : pyInt (4 * s₁) ≤ pyInt (4 * s₂) :=
    pyInt_mono (by linarith) (by linarith)
  have h6 : pyInt (6 * s₁) ≤ pyInt (6 * s₂) :=
    pyInt_mono (by linarith) (by linarith)
  exact ⟨max_le_max (by omega) le_rfl, max_le_max (by omega) le_rfl,
    max_le_max (by omega) le_rfl, max_le_max (by omega) le_rfl, h6⟩

/-- **C8 witness**: the monotonicity and floor conjuncts at strengths `1/2`
and `2` with jitter `1`. -/
theorem c8_anomaly_counts_witness :
    baroAnomalyCount (1/2) 1 ≤ baroAnomalyCount 2 1 ∧
    imuSpikeCount (1/2) ≤ imuSpikeCount 2 ∧
    1 ≤ ultraEventCount (1/2) 1 := by
  refine ⟨?_, ?_, ?_⟩
  · exact (c8_anomaly_counts_monotone_and_floored.2.2 (1/2) 2 1 (by norm_num)
      (by norm_num)).1
  · exact (c8_anomaly_counts_monotone_and_floored.2.2 (1/2) 2 1 (by norm_num)
      (by norm_num)).2.2.2.2
  · exact (c8_anomaly_counts_monotone_and_floored.2.1 (1/2) 1).2.2.2

/-- **C8 counterexample**: `veil_imu`'s spike count at strength `0.1` is
`int(0.6) = 0`, not floored at 1 — refuting the claim that every sensor
kind's per-call anomaly count is floored at 1. -/
theorem c8_counterexample_imu_count_below_floor : ¬ 1 ≤ imuSpikeCount (1/10) := by
  have h : imuSpikeCount (1/10) = 0 := by
    rw [imuSpikeCount, show (6 * (1/10 : ℚ)) = 3/5 by norm_num,
      pyInt_eq_floor (by norm_num)]
    norm_num
  omega

/-! ## C1: seeded determinism -/

/-- **C1** (the code bug, evaluated): `veil_imu` draws from a fresh
`np.random.default_rng()` seeded with OS entropy instead of the shared
generator that `set_seed` controls, so two runs of the identical call with
the identical explicit seed applied immediately before it — differing only
in the OS entropy the process happens to receive — give different outputs.
Every other engine draws only from the `set_seed`-controlled shared
generator. -/
theorem c1_imu_seeded_runs_differ :
    (veil_imu imuFix1 1 (set_seed 7 gOsZero)).1 ≠ (veil_imu imuFix1 1 (set_seed 7 gOsOne)).1 := by
  intro h
  have h2 := congrArg (fun r => okChan r "gx") h
  simp +decide [veil_imu, imuFix1, gOsZero, gOsOne, set_seed, freshOsRng, missingOf, hasKey,
    copyF32, asarrayF32, getD, getA, setA, okChan, zerosArr, imuSpikeCount, pyInt,
    Rat.num_ofNat, Rat.den_ofNat, Int.tdiv_one, iterateDraws, imuSpikeStep,
    Rng.integers, Rng.random, Rng.frac01, Rng.next, Rng.choose, Rng.normalVec, elt, addL,
    sliceAdd, smulL, linspace, cumsum, f32_zero, List.lookup] at h2

/-! ## C2: statistics-scaled composition -/

/-- **C2 counterexample**: `veil_imu` computes no channel statistics — on two
inputs whose `ax` channels have spans `0` and `1000`, the added distortion
(residual relative to the input) is identical, and nonzero; so its drift and
noise are not scaled by the channel's span or standard deviation. -/
theorem c2_counterexample_imu_ignores_statistics :
    listMax (getD imuFix2Wide "ax") - listMin (getD imuFix2Wide "ax") = 1000 ∧
    listMax (getD imuFix2 "ax") - listMin (getD imuFix2 "ax") = 0 ∧
    imuResidAx imuFix2 gOsOne = imuResidAx imuFix2Wide gOsOne ∧
    imuResidAx imuFix2 gOsOne ≠ [0, 0] := by
  refine ⟨?_, ?_, ?_, ?_⟩
  · simp +decide [imuFix2Wide, getD, getA, listMax, listMin, zerosArr, List.lookup]
  · simp +decide [imuFix2, getD, getA, listMax, listMin, zerosArr, List.lookup]
  all_goals
    simp +decide [imuResidAx, veil_imu, imuFix2, imuFix2Wide, gOsOne, freshOsRng, missingOf,
      hasKey, copyF32, asarrayF32, getD, getA, setA, okChan, zerosArr, imuSpikeCount, pyInt,
      Rat.num_ofNat, Rat.den_ofNat, Int.tdiv_one, iterateDraws, imuSpikeStep,
      Rng.integers, Rng.random, Rng.frac01, Rng.next, Rng.choose, Rng.normalVec, elt, addL,
      sliceAdd, smulL, linspace, cumsum, f32_zero, f32_one, f32_thousand, List.lookup,
      List.range_succ, List.range_zero]
  all_goals norm_num

/-! ## C3: physical clipping -/

/-- **C3 counterexample**: on a one-sample ultrasonic input whose only
reading is `-10`, the clip bound `r_max + 0.5 · span` is itself negative, so
(as NumPy's `clip` documents for `a_min > a_max`) every output equals that
negative bound: the output `range` value is `-19999/2000 < 0`, refuting
`range ≥ 0` for every input. -/
theorem c3_counterexample_ultrasonic_negative_output :
    okChan (veil_ultrasonic env0 usFixNeg 1 gZeroRng).1 "range" = [-19999/2000] ∧
    elt (okChan (veil_ultrasonic env0 usFixNeg 1 gZeroRng).1 "range") 0 < 0 := by
  have h : okChan (veil_ultrasonic env0 usFixNeg 1 gZeroRng).1 "range" = [-19999/2000] := by
    simp +decide [veil_ultrasonic, usFixNeg, gZeroRng, get_rng, putRng, missingOf, hasKey,
      copyF32, asarrayF32, getD, getA, setA, okChan, env0, stdL, varL, meanL, listMax,
      listMin, tNorm, ultraBaselineCurve, ultraEventCount, ultraEventStep, pyInt,
      Rat.num_ofNat, Rat.den_ofNat, Int.tdiv_one, iterateDraws, Rng.integers, Rng.random,
      Rng.frac01, Rng.next, Rng.chooseStr, Rng.uniform, Rng.uniformVec, Rng.normalVec,
      Rng.normalByVec, elt, addL, sliceBlend, smulL, linspace, cumsum, clipL, f32_zero,
      f32_neg_ten, List.lookup]
    norm_num
  refine ⟨h, ?_⟩
  rw [h]
  norm_num [elt]

/-- **C3 (amended)**: `veil_ultrasonic` clips its final `range` channel to
the interval `[0, r_max + 0.5 · span]`: when that upper bound is nonnegative
(in particular whenever some input reading is nonnegative) every output
value lies in `[0, r_max + 0.5 · span]`, and when the bound is negative
every output value equals the bound (so `range ≥ 0` can fail only on
all-negative inputs).  `veil_barometer` applies no clipping at all: for
every bound `B`, there is a generator state driving its output pressure
below `-B`. -/
theorem c3_ultrasonic_clips_barometer_does_not :
    (∀ (env : Env) (us : Sample) (strength : ℚ) (g : GState),
      missingOf ["t", "range"] us = [] →
      (getD (copyF32 us) "t").length ≠ 0 →
      ∃ out g', veil_ultrasonic env us strength g = (.ok out, g') ∧
        ∀ v ∈ getD out "range",
          (0 ≤ ultraClipHi us → 0 ≤ v ∧ v ≤ ultraClipHi us) ∧
          (ultraClipHi us < 0 → v = ultraClipHi us)) ∧
    (∀ B : ℚ, ∃ g : GState,
      elt (okChan (veil_barometer env0 baroFix 1 g).1 "pressure") 0 < -B) := by
  constructor
  · intro env us strength g h1 h2
    simp only [veil_ultrasonic]
    rw [h1]
    rw [if_neg (fun h => h rfl : ¬ (([] : List String) ≠ []))]
    rw [if_neg h2]
    have hk : hasKey (copyF32 us) "range" = true := by
      rw [hasKey_copyF32]
      exact hasKey_of_missingOf_nil h1 (by simp)
    refine ⟨_, _, rfl, ?_⟩
    rw [getD_setA_self _ _ _ hk]
    simp only [ultraClipHi]
    intro v hv
    rw [clipL, List.mem_map] at hv
    obtain ⟨x, _, hvx⟩ := hv
    subst hvx
    constructor
    · intro hhi
      exact ⟨le_min hhi (le_max_left 0 x), min_le_left _ _⟩
    · intro hhi
      exact min_eq_left (le_trans hhi.le (le_max_left 0 x))
  · intro B
    refine ⟨gBaroProbe B, ?_⟩
    have h : okChan (veil_barometer env0 baroFix 1 (gBaroProbe B)).1 "pressure" =
        [-B - 1] := by
      simp +decide [veil_barometer, baroFix, gBaroProbe, baroProbeStream, get_rng, putRng,
        missingOf, hasKey, copyF32, asarrayF32, getD, getA, setA, okChan, env0, stdL, varL,
        meanL, listMax, listMin, tNorm, baroDriftCurve, baroAnomalyCount, baroAnomStep,
        pyInt, Rat.num_ofNat, Rat.den_ofNat, Int.tdiv_one, iterateDraws, Rng.integers,
        Rng.random, Rng.frac01, Rng.next, Rng.chooseStr, Rng.uniform, Rng.uniformVec,
        Rng.normalVec, Rng.normalByVec, elt, addL, sliceAdd, smulL, linspace, cumsum,
        f32_zero, f32_baro, List.lookup, List.range_succ, List.range_zero]
      ring
    rw [h]
    have : elt [-B - 1] 0 = -B - 1 := rfl
    rw [this]
    linarith

/-- **C3 witness**: the clip characterisation applied to the concrete
one-sample ultrasonic input with reading `-10`. -/
theorem c3_ultrasonic_clips_witness :
    missingOf ["t", "range"] usFixNeg = [] ∧
    (getD (copyF32 usFixNeg) "t").length ≠ 0 ∧
    (∃ out g', veil_ultrasonic env0 usFixNeg 1 gZeroRng = (.ok out, g') ∧
      ∀ v ∈ getD out "range",
        (0 ≤ ultraClipHi usFixNeg → 0 ≤ v ∧ v ≤ ultraClipHi usFixNeg) ∧
        (ultraClipHi usFixNeg < 0 → v = ultraClipHi usFixNeg)) := by
  refine ⟨?h1, ?h2, ?_⟩
  case h1 => simp +decide [missingOf, hasKey, usFixNeg, List.lookup]
  case h2 => simp +decide [usFixNeg, copyF32, getD, getA, asarrayF32, List.lookup]
  exact c3_ultrasonic_clips_barometer_does_not.1 env0 usFixNeg 1 gZeroRng
    (by simp +decide [missingOf, hasKey, usFixNeg, List.lookup])
    (by simp +decide [usFixNeg, copyF32, getD, getA, asarrayF32, List.lookup])

/-! ## C5: empty input is an identity copy -/

/-- **C5**: on an all-empty input (all required channels present, every
channel of length 0), every veil operation returns without error a structure
with exactly the input's keys, each an empty sequence, performing no
stochastic computation (the process state, including the shared generator,
is returned untouched). -/
theorem c5_empty_input_identity_copy :
    ∀ (env : Env) (s : Sample) (strength : ℚ) (g : GState),
      (∀ kv ∈ s, kv.2.data = ([] : List ℚ)) →
      (missingOf ["t", "pressure"] s = [] →
        veil_barometer env s strength g = (.ok (copyF32 s), g)) ∧
      (missingOf ["t", "power"] s = [] →
        veil_rf env s strength g = (.ok (copyF32 s), g)) ∧
      (missingOf ["t", "mx", "my", "mz"] s = [] →
        veil_magnetometer env s strength g = (.ok (copyF32 s), g)) ∧
      (missingOf ["t", "range"] s = [] →
        veil_ultrasonic env s strength g = (.ok (copyF32 s), g)) ∧
      (missingOf ["t", "gx", "gy", "gz", "ax", "ay", "az"] s = [] →
        veil_imu s strength g = (.ok (copyF32 s), g)) ∧
      (s ≠ [] → (∀ kv ∈ s, kv.2.ndim = 1) →
        veil_fusion_timeseries env s strength g = (.ok (emptyF32 s), g)) ∧
      keysOf (copyF32 s) = keysOf s ∧
      keysOf (emptyF32 s) = keysOf s ∧
      (∀ kv ∈ copyF32 s, kv.2.data = ([] : List ℚ)) ∧
      (∀ kv ∈ emptyF32 s, kv.2.data = ([] : List ℚ)) := by
  intro env s strength g hempty
  have hcopy : ∀ kv ∈ copyF32 s, kv.2.data = ([] : List ℚ) := by
    intro kv hkv
    rw [copyF32] at hkv
    obtain ⟨kv0, hkv0, rfl⟩ := List.mem_map.mp hkv
    simp [asarrayF32, hempty kv0 hkv0]
  have hT : ∀ req : List String, missingOf req s = [] → "t" ∈ req →
      (getD (copyF32 s) "t").length = 0 := by
    intro req h1 hmem
    rw [getD_copyF32, getD_eq_nil_of_empty (hasKey_of_missingOf_nil h1 hmem) hempty]
    rfl
  refine ⟨?_, ?_, ?_, ?_, ?_, ?_, keysOf_copyF32 s, ?_, hcopy, ?_⟩
  · intro h1
    simp only [veil_barometer]
    rw [h1]
    rw [if_neg (fun h => h rfl : ¬ (([] : List String) ≠ []))]
    rw [if_pos (hT _ h1 (by simp))]
  · intro h1
    simp only [veil_rf]
    rw [h1]
    rw [if_neg (fun h => h rfl : ¬ (([] : List String) ≠ []))]
    rw [if_pos (hT _ h1 (by simp))]
  · intro h1
    simp only [veil_magnetometer]
    rw [h1]
    rw [if_neg (fun h => h rfl : ¬ (([] : List String) ≠ []))]
    rw [if_pos (hT _ h1 (by simp))]
  · intro h1
    simp only [veil_ultrasonic]
    rw [h1]
    rw [if_neg (fun h => h rfl : ¬ (([] : List String) ≠ []))]
    rw [if_pos (hT _ h1 (by simp))]
  · intro h1
    simp only [veil_imu]
    rw [h1]
    rw [if_neg (fun h => h rfl : ¬ (([] : List String) ≠ []))]
    rw [if_pos (hT _ h1 (by simp))]
  · intro hne h1d
    simp only [veil_fusion_timeseries]
    rw [if_neg hne]
    have hfind : s.find? (fun kv => decide (kv.2.ndim ≠ 1)) = none := by
      rw [List.find?_eq_none]
      intro x hx
      simp [h1d x hx]
    simp only [hfind]
    have hn0 : minLen (copyF32 s) = 0 := by
      refine minLen_eq_zero ?_ hcopy
      intro hc
      apply hne
      rw [copyF32] at hc
      exact List.map_eq_nil_iff.mp hc
    rw [if_pos hn0]
    have hmm : (copyF32 s).map (fun kv => (kv.1, { kv.2 with data := ([] : List ℚ) })) =
        emptyF32 s := by
      rw [copyF32, emptyF32, List.map_map]
      rfl
    rw [hmm]
  · simp [keysOf, emptyF32]
  · intro kv hkv
    rw [emptyF32] at hkv
    obtain ⟨kv0, _, rfl⟩ := List.mem_map.mp hkv
    rfl

/-- **C5 witness**: all six engines at an all-empty input carrying every
required channel. -/
theorem c5_empty_input_witness :
    veil_barometer env0 allKeysEmptyFix 1 gZeroRng =
      (.ok (copyF32 allKeysEmptyFix), gZeroRng) ∧
    veil_rf env0 allKeysEmptyFix 1 gZeroRng = (.ok (copyF32 allKeysEmptyFix), gZeroRng) ∧
    veil_magnetometer env0 allKeysEmptyFix 1 gZeroRng =
      (.ok (copyF32 allKeysEmptyFix), gZeroRng) ∧
    veil_ultrasonic env0 allKeysEmptyFix 1 gZeroRng =
      (.ok (copyF32 allKeysEmptyFix), gZeroRng) ∧
    veil_imu allKeysEmptyFix 1 gZeroRng = (.ok (copyF32 allKeysEmptyFix), gZeroRng) ∧
    veil_fusion_timeseries env0 allKeysEmptyFix 1 gZeroRng =
      (.ok (emptyF32 allKeysEmptyFix), gZeroRng) := by
  have h := c5_empty_input_identity_copy env0 allKeysEmptyFix 1 gZeroRng
    (by
      intro kv hkv
      simp only [allKeysEmptyFix, List.mem_cons, List.not_mem_nil, or_false] at hkv
      rcases hkv with rfl|rfl|rfl|rfl|rfl|rfl|rfl|rfl|rfl|rfl|rfl|rfl|rfl <;> rfl)
  exact ⟨h.1 (by simp +decide [missingOf, hasKey, allKeysEmptyFix, List.lookup]),
    h.2.1 (by simp +decide [missingOf, hasKey, allKeysEmptyFix, List.lookup]),
    h.2.2.1 (by simp +decide [missingOf, hasKey, allKeysEmptyFix, List.lookup]),
    h.2.2.2.1 (by simp +decide [missingOf, hasKey, allKeysEmptyFix, List.lookup]),
    h.2.2.2.2.1 (by simp +decide [missingOf, hasKey, allKeysEmptyFix, List.lookup]),
    h.2.2.2.2.2.1 (by simp [allKeysEmptyFix])
      (by
      intro kv hkv
      simp only [allKeysEmptyFix, List.mem_cons, List.not_mem_nil, or_false] at hkv
      rcases hkv with rfl|rfl|rfl|rfl|rfl|rfl|rfl|rfl|rfl|rfl|rfl|rfl|rfl <;> rfl)⟩

/-! ## C4: schema errors -/

/-- **C4**: every veil operation raises a schema error if and only if a
required channel is missing (single-sensor engines) or the mapping is empty
or some stream is not 1-D (fusion); the raised error carries exactly the
computed missing-key set (resp. the empty-dict / non-1-D diagnosis), and in
every error case the process state is returned untouched with no output
produced. -/
theorem c4_schema_error_iff_invalid :
    ∀ (env : Env) (s : Sample) (strength : ℚ) (g : GState),
      ((∃ e, (veil_barometer env s strength g).1 = .error e) ↔
        missingOf ["t", "pressure"] s ≠ []) ∧
      (missingOf ["t", "pressure"] s ≠ [] →
        veil_barometer env s strength g =
          (.error (.missingKeys "veil_barometer" (missingOf ["t", "pressure"] s)), g)) ∧
      ((∃ e, (veil_rf env s strength g).1 = .error e) ↔
        missingOf ["t", "power"] s ≠ []) ∧
      (missingOf ["t", "power"] s ≠ [] →
        veil_rf env s strength g =
          (.error (.missingKeys "veil_rf" (missingOf ["t", "power"] s)), g)) ∧
      ((∃ e, (veil_magnetometer env s strength g).1 = .error e) ↔
        missingOf ["t", "mx", "my", "mz"] s ≠ []) ∧
      (missingOf ["t", "mx", "my", "mz"] s ≠ [] →
        veil_magnetometer env s strength g =
          (.error (.missingKeys "veil_magnetometer" (missingOf ["t", "mx", "my", "mz"] s)),
           g)) ∧
      ((∃ e, (veil_ultrasonic env s strength g).1 = .error e) ↔
        missingOf ["t", "range"] s ≠ []) ∧
      (missingOf ["t", "range"] s ≠ [] →
        veil_ultrasonic env s strength g =
          (.error (.missingKeys "veil_ultrasonic" (missingOf ["t", "range"] s)), g)) ∧
      ((∃ e, (veil_imu s strength g).1 = .error e) ↔
        missingOf ["t", "gx", "gy", "gz", "ax", "ay", "az"] s ≠ []) ∧
      (missingOf ["t", "gx", "gy", "gz", "ax", "ay", "az"] s ≠ [] →
        veil_imu s strength g =
          (.error (.missingKeys "veil_imu"
            (missingOf ["t", "gx", "gy", "gz", "ax", "ay", "az"] s)), g)) ∧
      ((∃ e, (veil_fusion_timeseries env s strength g).1 = .error e) ↔
        (s = [] ∨ ∃ kv ∈ s, kv.2.ndim ≠ 1)) ∧
      (s = [] → veil_fusion_timeseries env s strength g = (.error .emptySensors, g)) ∧
      (∀ kv, s.find? (fun kv => decide (kv.2.ndim ≠ 1)) = some kv →
        veil_fusion_timeseries env s strength g = (.error (.notOneD kv.1), g)) := by
  intro env s strength g
  have hBifc :
      ∀ (req : List String) (X : Except VeilError Sample × GState)
        (Y : Except VeilError Sample × GState),
        (missingOf req s = [] → ∀ e, X.1 ≠ .error e) →
        (missingOf req s ≠ [] → X = Y) → (∃ e, Y.1 = .error e) →
        ((∃ e, X.1 = .error e) ↔ missingOf req s ≠ []) := by
    intro req X Y hOk hErr hY
    constructor
    · rintro ⟨e, he⟩ hm
      exact hOk hm e he
    · intro hne
      obtain ⟨e, hYe⟩ := hY
      exact ⟨e, by rw [hErr hne, hYe]⟩
  have hErrB : missingOf ["t", "pressure"] s ≠ [] →
      veil_barometer env s strength g =
        (.error (.missingKeys "veil_barometer" (missingOf ["t", "pressure"] s)), g) := by
    intro hm
    simp only [veil_barometer]
    rw [if_pos hm]
  have hOkB : missingOf ["t", "pressure"] s = [] →
      ∀ e, (veil_barometer env s strength g).1 ≠ .error e := by
    intro hm e
    simp only [veil_barometer]
    rw [hm, if_neg (fun h => h rfl : ¬ (([] : List String) ≠ []))]
    by_cases hn : (getD (copyF32 s) "t").length = 0
    · rw [if_pos hn]
      simp
    · rw [if_neg hn]
      simp
  have hErrR : missingOf ["t", "power"] s ≠ [] →
      veil_rf env s strength g =
        (.error (.missingKeys "veil_rf" (missingOf ["t", "power"] s)), g) := by
    intro hm
    simp only [veil_rf]
    rw [if_pos hm]
  have hOkR : missingOf ["t", "power"] s = [] →
      ∀ e, (veil_rf env s strength g).1 ≠ .error e := by
    intro hm e
    simp only [veil_rf]
    rw [hm, if_neg (fun h => h rfl : ¬ (([] : List String) ≠ []))]
    by_cases hn : (getD (copyF32 s) "t").length = 0
    · rw [if_pos hn]
      simp
    · rw [if_neg hn]
      simp
  have hErrM : missingOf ["t", "mx", "my", "mz"] s ≠ [] →
      veil_magnetometer env s strength g =
        (.error (.missingKeys "veil_magnetometer" (missingOf ["t", "mx", "my", "mz"] s)),
         g) := by
    intro hm
    simp only [veil_magnetometer]
    rw [if_pos hm]
  have hOkM : missingOf ["t", "mx", "my", "mz"] s = [] →
      ∀ e, (veil_magnetometer env s strength g).1 ≠ .error e := by
    intro hm e
    simp only [veil_magnetometer]
    rw [hm, if_neg (fun h => h rfl : ¬ (([] : List String) ≠ []))]
    by_cases hn : (getD (copyF32 s) "t").length = 0
    · rw [if_pos hn]
      simp
    · rw [if_neg hn]
      simp
  have hErrU : missingOf ["t", "range"] s ≠ [] →
      veil_ultrasonic env s strength g =
        (.error (.missingKeys "veil_ultrasonic" (missingOf ["t", "range"] s)), g) := by
    intro hm
    simp only [veil_ultrasonic]
    rw [if_pos hm]
  have hOkU : missingOf ["t", "range"] s = [] →
      ∀ e, (veil_ultrasonic env s strength g).1 ≠ .error e := by
    intro hm e
    simp only [veil_ultrasonic]
    rw [hm, if_neg (fun h => h rfl : ¬ (([] : List String) ≠ []))]
    by_cases hn : (getD (copyF32 s) "t").length = 0
    · rw [if_pos hn]
      simp
    · rw [if_neg hn]
      simp
  have hErrI : missingOf ["t", "gx", "gy", "gz", "ax", "ay", "az"] s ≠ [] →
      veil_imu s strength g =
        (.error (.missingKeys "veil_imu"
          (missingOf ["t", "gx", "gy", "gz", "ax", "ay", "az"] s)), g) := by
    intro hm
    simp only [veil_imu]
    rw [if_pos hm]
  have hOkI : missingOf ["t", "gx", "gy", "gz", "ax", "ay", "az"] s = [] →
      ∀ e, (veil_imu s strength g).1 ≠ .error e := by
    intro hm e
    simp only [veil_imu]
    rw [hm, if_neg (fun h => h rfl : ¬ (([] : List String) ≠ []))]
    by_cases hn : (getD (copyF32 s) "t").length = 0
    · rw [if_pos hn]
      simp
    · rw [if_neg hn]
      simp
  have hFE : s = [] → veil_fusion_timeseries env s strength g = (.error .emptySensors, g) := by
    intro hm
    subst hm
    simp [veil_fusion_timeseries]
  have hFD : ∀ kv, s.find? (fun kv => decide (kv.2.ndim ≠ 1)) = some kv →
      veil_fusion_timeseries env s strength g = (.error (.notOneD kv.1), g) := by
    intro kv hf
    have hne : s ≠ [] := by
      intro hc
      subst hc
      simp at hf
    simp only [veil_fusion_timeseries]
    rw [if_neg hne]
    simp only [hf]
  have hFOk : s ≠ [] → s.find? (fun kv => decide (kv.2.ndim ≠ 1)) = none →
      ∀ e, (veil_fusion_timeseries env s strength g).1 ≠ .error e := by
    intro hne hf e
    simp only [veil_fusion_timeseries]
    rw [if_neg hne]
    simp only [hf]
    by_cases hn : minLen (copyF32 s) = 0
    · rw [if_pos hn]
      simp
    · rw [if_neg hn]
      simp
  refine ⟨hBifc _ _ _ hOkB hErrB ⟨_, rfl⟩, hErrB, hBifc _ _ _ hOkR hErrR ⟨_, rfl⟩, hErrR,
    hBifc _ _ _ hOkM hErrM ⟨_, rfl⟩, hErrM, hBifc _ _ _ hOkU hErrU ⟨_, rfl⟩, hErrU,
    hBifc _ _ _ hOkI hErrI ⟨_, rfl⟩, hErrI, ?_, hFE, hFD⟩
  constructor
  · rintro ⟨e, he⟩
    by_contra hc
    push_neg at hc
    obtain ⟨hne, hall⟩ := hc
    have hf : s.find? (fun kv => decide (kv.2.ndim ≠ 1)) = none := by
      rw [List.find?_eq_none]
      intro x hx
      simp [hall x hx]
    exact hFOk hne hf e he
  · rintro (hm | ⟨kv, hkv, hnd⟩)
    · exact ⟨.emptySensors, by rw [hFE hm]⟩
    · have hsome : (s.find? (fun kv => decide (kv.2.ndim ≠ 1))).isSome := by
        rw [List.find?_isSome]
        exact ⟨kv, hkv, by simpa using hnd⟩
      obtain ⟨kv', hkv'⟩ := Option.isSome_iff_exists.mp hsome
      exact ⟨.notOneD kv'.1, by rw [hFD kv' hkv']⟩

/-- **C4 witness**: an RF input missing `power` errors naming exactly
`power`; the empty fusion mapping and a 2-D fusion stream error; a complete
barometer input does not error. -/
theorem c4_schema_error_witness :
    veil_rf env0 [("t", ⟨.f64, 1, [0]⟩)] 1 gZeroRng =
      (.error (.missingKeys "veil_rf" ["power"]), gZeroRng) ∧
    veil_fusion_timeseries env0 [] 1 gZeroRng = (.error .emptySensors, gZeroRng) ∧
    veil_fusion_timeseries env0 [("img", ⟨.f64, 2, [0, 0, 0, 0]⟩)] 1 gZeroRng =
      (.error (.notOneD "img"), gZeroRng) ∧
    ¬ ∃ e, (veil_barometer env0 baroFix 1 gZeroRng).1 = .error e := by
  have h1 := (c4_schema_error_iff_invalid env0 [("t", ⟨.f64, 1, [0]⟩)] 1 gZeroRng).2.2.2.1
  have h2 := (c4_schema_error_iff_invalid env0 ([] : Sample) 1 gZeroRng).2.2.2.2.2.2.2.2.2.2.2.1
  have h3 := (c4_schema_error_iff_invalid env0 [("img", ⟨.f64, 2, [0, 0, 0, 0]⟩)] 1
    gZeroRng).2.2.2.2.2.2.2.2.2.2.2.2
  have h4 := (c4_schema_error_iff_invalid env0 baroFix 1 gZeroRng).1
  refine ⟨?_, h2 rfl, ?_, ?_⟩
  · have := h1 (by simp +decide [missingOf, hasKey, List.lookup])
    rw [this]
    simp +decide [missingOf, hasKey, List.lookup]
  · exact h3 ("img", ⟨.f64, 2, [0, 0, 0, 0]⟩) (by simp +decide [List.find?])
  · intro he
    have := h4.mp he
    exact this (by simp +decide [missingOf, hasKey, baroFix, List.lookup])

/-! ## C7: frame of non-target channels -/

/-- **C7 counterexample**: the engines convert every channel to float32, so
the `t` channel is not always value-unchanged: on a barometer input with
`t = [0.1]`, the output `t` value is the binary32 rounding
`13421773/2^27 ≠ 1/10`. -/
theorem c7_counterexample_t_channel_rounded :
    okChan (veil_barometer env0 baroFixTenth 1 gZeroRng).1 "t" ≠ getD baroFixTenth "t" := by
  have h : okChan (veil_barometer env0 baroFixTenth 1 gZeroRng).1 "t" =
      [(13421773 : ℚ) / 134217728] := by
    simp +decide [veil_barometer, baroFixTenth, gZeroRng, get_rng, putRng, missingOf, hasKey,
      copyF32, asarrayF32, getD, getA, setA, okChan, env0, stdL, varL, meanL, listMax,
      listMin, tNorm, baroDriftCurve, baroAnomalyCount, baroAnomStep, pyInt,
      Rat.num_ofNat, Rat.den_ofNat, Int.tdiv_one, iterateDraws, Rng.integers, Rng.random,
      Rng.frac01, Rng.next, Rng.chooseStr, Rng.uniform, Rng.uniformVec, Rng.normalVec,
      Rng.normalByVec, elt, addL, sliceAdd, smulL, linspace, cumsum, f32_zero, f32_tenth,
      List.lookup]
    rw [show ((10 : ℚ))⁻¹ = 1/10 by norm_num]
    exact f32_tenth
  rw [h]
  norm_num [baroFixTenth, getD, getA, List.lookup]

/-! ## Length lemmas -/

/-- `addL` truncates to the shorter operand. -/
theorem length_addL (xs ys : List ℚ) : (addL xs ys).length = min xs.length ys.length := by
  simp [addL]

/-- `smulL` preserves length. -/
theorem length_smulL (c : ℚ) (xs : List ℚ) : (smulL c xs).length = xs.length := by
  simp [smulL]

/-- `cumsum` preserves length. -/
theorem length_cumsum (xs : List ℚ) : (cumsum xs).length = xs.length := by
  simp [cumsum]

/-- `linspace` has the requested length. -/
theorem length_linspace (a b : ℚ) (n : ℕ) : (linspace a b n).length = n := by
  rw [linspace, List.length_map, List.length_range]

/-- `movingAvg5` preserves length. -/
theorem length_movingAvg5 (xs : List ℚ) : (movingAvg5 xs).length = xs.length := by
  rw [movingAvg5, List.length_map, List.length_range]

/-- `tNorm` preserves length. -/
theorem length_tNorm (t : List ℚ) : (tNorm t).length = t.length := by
  simp [tNorm]

/-- `sliceAdd` preserves length. -/
theorem length_sliceAdd (xs : List ℚ) (c : ℕ) (w : List ℚ) :
    (sliceAdd xs c w).length = xs.length := by
  simp [sliceAdd]

/-- `sliceBlend` preserves length. -/
theorem length_sliceBlend (xs : List ℚ) (c : ℕ) (e : List ℚ) (tg : ℚ) :
    (sliceBlend xs c e tg).length = xs.length := by
  simp [sliceBlend]

/-- `clipL` preserves length. -/
theorem length_clipL (lo hi : ℚ) (xs : List ℚ) : (clipL lo hi xs).length = xs.length := by
  simp [clipL]

/-- The first component of `Rng.normalVec` has the requested length. -/
theorem length_normalVec (g : Rng) (m s : ℚ) (n : ℕ) :
    (g.normalVec m s n).1.length = n := by
  simp [Rng.normalVec]

/-- The first component of `Rng.normalByVec` has the sigma vector's length. -/
theorem length_normalByVec (g : Rng) (sig : List ℚ) :
    (g.normalByVec sig).1.length = sig.length := by
  simp [Rng.normalByVec]

/-- An invariant preserved by each step is preserved by the iterated loop. -/
theorem iterateDraws_preserve {α : Type} {step : α → Rng → α × Rng} (P : α → Prop)
    (hstep : ∀ a rng, P a → P (step a rng).1) :
    ∀ (k : ℕ) (a : α) (rng : Rng), P a → P (iterateDraws step k a rng).1 := by
  intro k
  induction k with
  | zero => intro a rng h; exact h
  | succ k ih =>
      intro a rng h
      rw [iterateDraws]
      exact ih _ _ (hstep a rng h)

/-- The barometer anomaly step preserves the channel length. -/
theorem length_baroAnomStep (n : ℕ) (std strength : ℚ) (p : List ℚ) (rng : Rng) :
    (baroAnomStep n std strength p rng).1.length = p.length := by
  rw [baroAnomStep]
  by_cases h : min (n : ℤ) ((rng.integers 5 (max 6 ((n : ℤ) - 5))).1 +
      ((rng.integers 5 (max 6 ((n : ℤ) - 5))).2.integers 15 60).1) ≤
      (rng.integers 5 (max 6 ((n : ℤ) - 5))).1
  · rw [if_pos h]
  · rw [if_neg h]
    exact length_sliceAdd _ _ _

/-- The RF burst step preserves the channel length. -/
theorem length_rfBurstStep (n : ℕ) (std strength : ℚ) (p : List ℚ) (rng : Rng) :
    (rfBurstStep n std strength p rng).1.length = p.length := by
  rw [rfBurstStep]
  by_cases h : min (n : ℤ) ((rng.integers 5 (max 6 ((n : ℤ) - 5))).1 +
      ((rng.integers 5 (max 6 ((n : ℤ) - 5))).2.integers 15 80).1) ≤
      (rng.integers 5 (max 6 ((n : ℤ) - 5))).1
  · rw [if_pos h]
  · rw [if_neg h]
    exact length_sliceAdd _ _ _

/-- The ultrasonic event step preserves the channel length. -/
theorem length_ultraEventStep (n : ℕ) (rmin rmax span : ℚ) (r : List ℚ) (rng : Rng) :
    (ultraEventStep n rmin rmax span r rng).1.length = r.length := by
  rw [ultraEventStep]
  by_cases h : min (n : ℤ) ((rng.integers 5 (max 6 ((n : ℤ) - 5))).1 +
      ((rng.integers 5 (max 6 ((n : ℤ) - 5))).2.integers 10 60).1) ≤
      (rng.integers 5 (max 6 ((n : ℤ) - 5))).1
  · rw [if_pos h]
  · rw [if_neg h]
    exact length_sliceBlend _ _ _ _

/-- The magnetometer anomaly step preserves all three channel lengths. -/
theorem length_magAnomStep (env : Env) (n : ℕ) (std strength : ℚ) (m : Mag3) (rng : Rng) :
    ((magAnomStep env n std strength m rng).1.mx.length = m.mx.length ∧
     (magAnomStep env n std strength m rng).1.my.length = m.my.length ∧
     (magAnomStep env n std strength m rng).1.mz.length = m.mz.length) := by
  rw [magAnomStep]
  by_cases h : min (n : ℤ) ((rng.integers 5 (max 6 ((n : ℤ) - 5))).1 +
      ((rng.integers 5 (max 6 ((n : ℤ) - 5))).2.integers 8 40).1) ≤
      (rng.integers 5 (max 6 ((n : ℤ) - 5))).1
  · rw [if_pos h]
    exact ⟨rfl, rfl, rfl⟩
  · rw [if_neg h]
    exact ⟨length_sliceAdd _ _ _, length_sliceAdd _ _ _, length_sliceAdd _ _ _⟩

/-- The IMU spike step preserves all six channel lengths. -/
theorem length_imuSpikeStep (n : ℕ) (v : Imu6) (rng : Rng) :
    ((imuSpikeStep n v rng).1.gx.length = v.gx.length ∧
     (imuSpikeStep n v rng).1.gy.length = v.gy.length ∧
     (imuSpikeStep n v rng).1.gz.length = v.gz.length ∧
     (imuSpikeStep n v rng).1.ax.length = v.ax.length ∧
     (imuSpikeStep n v rng).1.ay.length = v.ay.length ∧
     (imuSpikeStep n v rng).1.az.length = v.az.length) := by
  rw [imuSpikeStep]
  exact ⟨length_sliceAdd _ _ _, length_sliceAdd _ _ _, rfl,
    length_sliceAdd _ _ _, length_sliceAdd _ _ _, length_sliceAdd _ _ _⟩

/-- Length of a present channel with uniform channel lengths. -/
theorem getD_length {s : Sample} {k : String} {N : ℕ} (hk : hasKey s k = true)
    (h : ∀ kv ∈ s, kv.2.data.length = N) : (getD s k).length = N := by
  rw [hasKey] at hk
  rcases hl : s.lookup k with _ | v
  · rw [hl] at hk
    simp at hk
  · rw [getD, getA, hl]
    exact h (k, v) (lookup_mem hl)

/-- The float32 copy preserves every channel length. -/
theorem lengths_copyF32 {s : Sample} {N : ℕ} (h : ∀ kv ∈ s, kv.2.data.length = N) :
    ∀ kv ∈ copyF32 s, kv.2.data.length = N := by
  intro kv hkv
  rw [copyF32] at hkv
  obtain ⟨kv0, hkv0, rfl⟩ := List.mem_map.mp hkv
  simpa [asarrayF32] using h kv0 hkv0

/-- Assignment of an equal-length array preserves uniform channel lengths. -/
theorem length_entries_setA {s : Sample} {k : String} {v : Arr} {N : ℕ}
    (hs : ∀ kv ∈ s, kv.2.data.length = N) (hv : v.data.length = N) :
    ∀ kv ∈ setA s k v, kv.2.data.length = N := by
  intro kv hkv
  rw [setA] at hkv
  obtain ⟨kv0, hkv0, rfl⟩ := List.mem_map.mp hkv
  by_cases h : kv0.1 = k
  · rw [if_pos h]
    exact hv
  · rw [if_neg h]
    exact hs kv0 hkv0

/-- Every entry of a float32 copy carries the float32 dtype. -/
theorem dtype_copyF32 (s : Sample) : ∀ kv ∈ copyF32 s, kv.2.dtype = DType.f32 := by
  intro kv hkv
  obtain ⟨kv0, _, rfl⟩ := List.mem_map.mp hkv
  rfl

/-- `setA` keeps a uniform float32 dtype when the new value is float32. -/
theorem dtype_entries_setA {s : Sample} {k : String} {v : Arr}
    (hs : ∀ kv ∈ s, kv.2.dtype = DType.f32) (hv : v.dtype = DType.f32) :
    ∀ kv ∈ setA s k v, kv.2.dtype = DType.f32 := by
  intro kv hkv
  rw [setA] at hkv
  obtain ⟨kv0, hkv0, rfl⟩ := List.mem_map.mp hkv
  by_cases h : kv0.1 = k
  · rw [if_pos h]
    exact hv
  · rw [if_neg h]
    exact hs kv0 hkv0

/-- A channel looked up as a float32 copy has data equal to the rounded input. -/
theorem getD_map_f32_of_lookup {out s : Sample} {k : String}
    (h : out.lookup k = (s.lookup k).map asarrayF32) :
    getD out k = (getD s k).map f32 := by
  rw [getD, getD, getA, getA, h]
  cases s.lookup k <;> simp [asarrayF32]

/-- Writing one key leaves the data of every other key unchanged. -/
theorem getD_setA_ne (s : Sample) (k k' : String) (v : Arr) (h : k ≠ k') :
    getD (setA s k' v) k = getD s k := by
  rw [getD, getD, getA, getA, lookup_setA_ne s k k' v h]

/-- A list of exactly binary32-representable values is unchanged by rounding. -/
theorem map_f32_fixed {xs : List ℚ} (h : ∀ x ∈ xs, f32 x = x) : xs.map f32 = xs := by
  induction xs with
  | nil => rfl
  | cons a l ih =>
      rw [List.map_cons, h a (by simp), ih (fun x hx => h x (by simp [hx]))]

/-- Length of the barometer drift curve. -/
theorem length_baroDriftCurve (env : Env) (strength : ℚ) (tnorm phases : List ℚ) :
    (baroDriftCurve env strength tnorm phases).length = tnorm.length := by
  simp [baroDriftCurve]

/-- Length of the RF warp curve. -/
theorem length_rfWarpCurve (env : Env) (strength : ℚ) (tnorm phases : List ℚ) :
    (rfWarpCurve env strength tnorm phases).length = tnorm.length := by
  simp [rfWarpCurve]

/-- Length of the ultrasonic baseline curve. -/
theorem length_ultraBaselineCurve (env : Env) (strength : ℚ) (tnorm phases : List ℚ) :
    (ultraBaselineCurve env strength tnorm phases).length = tnorm.length := by
  simp [ultraBaselineCurve]

/-- A fold of `min` never exceeds its initial value. -/
theorem foldl_min_le_init (r : List (String × Arr)) (a : ℕ) :
    r.foldl (fun m kv => min m kv.2.data.length) a ≤ a := by
  induction r generalizing a with
  | nil => exact le_rfl
  | cons kv rest ih =>
      rw [List.foldl_cons]
      exact le_trans (ih _) (min_le_left _ _)

/-- A fold of `min` is bounded by every list element. -/
theorem foldl_min_le_mem {r : List (String × Arr)} {kv : String × Arr} (h : kv ∈ r) :
    ∀ a : ℕ, r.foldl (fun m kv' => min m kv'.2.data.length) a ≤ kv.2.data.length := by
  induction r with
  | nil => exact absurd h (List.not_mem_nil kv)
  | cons kv' rest ih =>
      intro a
      rw [List.foldl_cons]
      rcases List.mem_cons.mp h with rfl | hmem
      · exact le_trans (foldl_min_le_init _ _) (min_le_right _ _)
      · exact ih hmem _

/-- `minLen` bounds every stream length. -/
theorem minLen_le {s : Sample} {kv : String × Arr} (h : kv ∈ s) :
    minLen s ≤ kv.2.data.length := by
  rcases s with _ | ⟨kv0, rest⟩
  · exact absurd h (List.not_mem_nil kv)
  · rw [minLen]
    rcases List.mem_cons.mp h with rfl | hmem
    · exact foldl_min_le_init _ _
    · exact foldl_min_le_mem hmem _

/-- The float32 copy preserves the shortest length. -/
theorem minLen_copyF32 (s : Sample) : minLen (copyF32 s) = minLen s := by
  have hfold : ∀ (r : List (String × Arr)) (a : ℕ),
      (r.map (fun kv => (kv.1, asarrayF32 kv.2))).foldl
        (fun m kv' => min m kv'.2.data.length) a =
        r.foldl (fun m kv' => min m kv'.2.data.length) a := by
    intro r
    induction r with
    | nil => intro a; rfl
    | cons kv' rest' ih =>
        intro a
        rw [List.map_cons, List.foldl_cons, List.foldl_cons]
        simp only [asarrayF32, List.length_map]
        exact ih _
  rcases s with _ | ⟨kv, rest⟩
  · rfl
  · rw [copyF32, List.map_cons, minLen, minLen]
    simp only [asarrayF32, List.length_map]
    exact hfold rest _

/-- Structure of the fusion per-stream loop: keys are preserved, every
output array is float32, and every output length is the truncated base
length capped by the three latent lengths. -/
theorem fusionLoop_entries (env : Env) (strength : ℚ) (l1 l2 l3 : List ℚ) :
    ∀ (arrs : Sample) (rng : Rng),
      keysOf (fusionLoop env strength l1 l2 l3 arrs rng).1 = keysOf arrs ∧
      ∀ kv ∈ (fusionLoop env strength l1 l2 l3 arrs rng).1,
        kv.2.dtype = DType.f32 ∧
        ∃ kv0 ∈ arrs, kv.1 = kv0.1 ∧
          kv.2.data.length =
            min kv0.2.data.length (min (min l1.length l2.length) l3.length) := by
  intro arrs
  induction arrs with
  | nil =>
      intro rng
      exact ⟨rfl, fun kv hkv => absurd hkv (List.not_mem_nil kv)⟩
  | cons kv rest ih =>
      intro rng
      rw [fusionLoop]
      obtain ⟨ihk, ihe⟩ := ih ((fusionStep env strength l1 l2 l3 kv.2 rng).2)
      constructor
      · simp only [keysOf, List.map_cons]
        rw [show keysOf ((fusionLoop env strength l1 l2 l3 rest
            (fusionStep env strength l1 l2 l3 kv.2 rng).2).1) =
            (fusionLoop env strength l1 l2 l3 rest
            (fusionStep env strength l1 l2 l3 kv.2 rng).2).1.map Prod.fst from rfl] at ihk
        rw [ihk]
        rfl
      · intro kv' hkv'
        rcases List.mem_cons.mp hkv' with rfl | hmem
        · refine ⟨rfl, kv, List.mem_cons_self _ _, rfl, ?_⟩
          show (addL kv.2.data _).length = _
          simp only [length_addL, length_smulL]
        · obtain ⟨hd, kv0, hkv0, hk1, hlen⟩ := ihe kv' hmem
          exact ⟨hd, kv0, List.mem_cons_of_mem _ hkv0, hk1, hlen⟩

/-- Adding equal-length arrays keeps the length. -/
theorem length_addL_eq {A B : List ℚ} {N : ℕ} (hA : A.length = N) (hB : B.length = N) :
    (addL A B).length = N := by
  rw [length_addL, hA, hB, min_self]

/-- The barometer anomaly loop preserves the channel length. -/
theorem baroIter_len {nval : ℕ} {std strength : ℚ} {k : ℕ} {p : List ℚ} {rng : Rng}
    {N : ℕ} (hp : p.length = N) :
    (iterateDraws (baroAnomStep nval std strength) k p rng).1.length = N :=
  iterateDraws_preserve (fun l => l.length = N)
    (fun a r ha => by
      show (baroAnomStep nval std strength a r).1.length = N
      rw [length_baroAnomStep]
      exact ha) k p rng hp

/-- The RF burst loop preserves the channel length. -/
theorem rfIter_len {nval : ℕ} {std strength : ℚ} {k : ℕ} {p : List ℚ} {rng : Rng}
    {N : ℕ} (hp : p.length = N) :
    (iterateDraws (rfBurstStep nval std strength) k p rng).1.length = N :=
  iterateDraws_preserve (fun l => l.length = N)
    (fun a r ha => by
      show (rfBurstStep nval std strength a r).1.length = N
      rw [length_rfBurstStep]
      exact ha) k p rng hp

/-- The ultrasonic event loop preserves the channel length. -/
theorem ultraIter_len {nval : ℕ} {rmin rmax span : ℚ} {k : ℕ} {r : List ℚ} {rng : Rng}
    {N : ℕ} (hr : r.length = N) :
    (iterateDraws (ultraEventStep nval rmin rmax span) k r rng).1.length = N :=
  iterateDraws_preserve (fun l => l.length = N)
    (fun a rr ha => by
      show (ultraEventStep nval rmin rmax span a rr).1.length = N
      rw [length_ultraEventStep]
      exact ha) k r rng hr

/-- The magnetometer anomaly loop preserves all three channel lengths. -/
theorem magIter_len {env : Env} {nval : ℕ} {std strength : ℚ} {k : ℕ} {m : Mag3}
    {rng : Rng} {N : ℕ} (h1 : m.mx.length = N) (h2 : m.my.length = N)
    (h3 : m.mz.length = N) :
    (iterateDraws (magAnomStep env nval std strength) k m rng).1.mx.length = N ∧
    (iterateDraws (magAnomStep env nval std strength) k m rng).1.my.length = N ∧
    (iterateDraws (magAnomStep env nval std strength) k m rng).1.mz.length = N := by
  have := iterateDraws_preserve
    (fun m' : Mag3 => m'.mx.length = N ∧ m'.my.length = N ∧ m'.mz.length = N)
    (fun a r ha => by
      show _ ∧ _ ∧ _
      obtain ⟨q1, q2, q3⟩ := length_magAnomStep env nval std strength a r
      exact ⟨q1.trans ha.1, q2.trans ha.2.1, q3.trans ha.2.2⟩)
    k m rng ⟨h1, h2, h3⟩
  exact this

/-- One magnetometer drift term preserves all three channel lengths. -/
theorem length_magDriftTerm {env : Env} {f : ℚ} {tnorm : List ℚ} {ph : ℚ} {d : Mag3}
    {rng : Rng} {N : ℕ} (h1 : d.mx.length = N) (h2 : d.my.length = N)
    (h3 : d.mz.length = N) (ht : tnorm.length = N) :
    (magDriftTerm env f tnorm ph d rng).1.mx.length = N ∧
    (magDriftTerm env f tnorm ph d rng).1.my.length = N ∧
    (magDriftTerm env f tnorm ph d rng).1.mz.length = N := by
  rw [magDriftTerm]
  refine ⟨?_, ?_, ?_⟩ <;>
    simp only [length_addL, List.length_map, h1, h2, h3, ht, min_self]

/-- The IMU spike loop preserves all six channel lengths. -/
theorem imuIter_len {nval : ℕ} {k : ℕ} {v : Imu6} {rng : Rng} {N : ℕ}
    (h1 : v.gx.length = N) (h2 : v.gy.length = N) (h3 : v.gz.length = N)
    (h4 : v.ax.length = N) (h5 : v.ay.length = N) (h6 : v.az.length = N) :
    (iterateDraws (imuSpikeStep nval) k v rng).1.gx.length = N ∧
    (iterateDraws (imuSpikeStep nval) k v rng).1.gy.length = N ∧
    (iterateDraws (imuSpikeStep nval) k v rng).1.gz.length = N ∧
    (iterateDraws (imuSpikeStep nval) k v rng).1.ax.length = N ∧
    (iterateDraws (imuSpikeStep nval) k v rng).1.ay.length = N ∧
    (iterateDraws (imuSpikeStep nval) k v rng).1.az.length = N := by
  have := iterateDraws_preserve
    (fun v' : Imu6 => v'.gx.length = N ∧ v'.gy.length = N ∧ v'.gz.length = N ∧
      v'.ax.length = N ∧ v'.ay.length = N ∧ v'.az.length = N)
    (fun a r ha => by
      show _ ∧ _ ∧ _ ∧ _ ∧ _ ∧ _
      obtain ⟨q1, q2, q3, q4, q5, q6⟩ := length_imuSpikeStep nval a r
      exact ⟨q1.trans ha.1, q2.trans ha.2.1, q3.trans ha.2.2.1, q4.trans ha.2.2.2.1,
        q5.trans ha.2.2.2.2.1, q6.trans ha.2.2.2.2.2⟩)
    k v rng ⟨h1, h2, h3, h4, h5, h6⟩
  exact this

/-! ## C9: profile strength lookup -/

/-- **C9**: `get_profile_strength` fails if and only if the normalised
profile name is a key of neither the loaded external configuration nor the
built-in profile table; the error carries the unknown name and the valid
built-in profile names; and whenever the external configuration defines the
profile, the result is computed from that configuration (external config
takes precedence over the built-ins). -/
theorem c9_profile_lookup_error_iff_and_precedence :
    ∀ (yamlProfiles : List (String × ProfileCfg)) (profile sensorName : String),
      ((∃ e, get_profile_strength yamlProfiles profile sensorName = .error e) ↔
        (yamlProfiles.lookup (normName profile) = none ∧
         BASE_PROFILES.lookup (normName profile) = none)) ∧
      ((yamlProfiles.lookup (normName profile) = none ∧
        BASE_PROFILES.lookup (normName profile) = none) →
        get_profile_strength yamlProfiles profile sensorName =
          .error (.unknownProfile profile (BASE_PROFILES.map Prod.fst))) ∧
      (∀ cfg, yamlProfiles.lookup (normName profile) = some cfg →
        get_profile_strength yamlProfiles profile sensorName =
          .ok (yamlStrength cfg (normName profile) (normName sensorName))) := by
  intro yamlProfiles profile sensorName
  refine ⟨?_, ?_, ?_⟩
  · constructor
    · rintro ⟨e, he⟩
      rw [get_profile_strength] at he
      rcases hy : yamlProfiles.lookup (normName profile) with _ | cfg
      · rcases hb : BASE_PROFILES.lookup (normName profile) with _ | base
        · exact ⟨rfl, rfl⟩
        · rw [hy, hb] at he
          simp at he
      · rw [hy] at he
        simp at he
    · rintro ⟨hy, hb⟩
      refine ⟨.unknownProfile profile (BASE_PROFILES.map Prod.fst), ?_⟩
      rw [get_profile_strength, hy, hb]
  · rintro ⟨hy, hb⟩
    rw [get_profile_strength, hy, hb]
  · intro cfg hy
    rw [get_profile_strength, hy]

/-- **C9 witness**: with an external configuration defining `privacy`
(base 3, rf factor 2), the lookup returns the configuration-derived `6`
rather than the built-in `1`; and an unknown profile errors with the
built-in names. -/
theorem c9_profile_lookup_witness :
    get_profile_strength [("privacy", ⟨some 3, [("rf", 2)]⟩)] "privacy" "rf" = .ok 6 ∧
    get_profile_strength [] "bogus" "rf" =
      .error (.unknownProfile "bogus" ["light", "privacy", "ghost", "chaos"]) := by
  constructor
  · have h1 : normName "privacy" = "privacy" := by decide
    have h2 : normName "rf" = "rf" := by decide
    have h := (c9_profile_lookup_error_iff_and_precedence
      [("privacy", ⟨some 3, [("rf", 2)]⟩)] "privacy" "rf").2.2
      ⟨some 3, [("rf", 2)]⟩ (by rw [h1]; simp +decide [List.lookup])
    rw [h, h1, h2]
    have : yamlStrength ⟨some 3, [("rf", 2)]⟩ "privacy" "rf" = 6 := by
      simp +decide [yamlStrength, List.lookup]
      norm_num
    rw [this]
  · have h := (c9_profile_lookup_error_iff_and_precedence [] "bogus" "rf").2.1
      ⟨by simp [List.lookup], by simp +decide [BASE_PROFILES, normName, List.lookup]⟩
    rw [h]
    simp +decide [BASE_PROFILES]

/-! ## C6: output lengths and keys -/

/-- **C6**: for every nonempty mapping of 1-D streams, the fusion engine
succeeds with exactly the input's keys and every output stream of length
`min(len(s) for s in inputs)`; for the five single-sensor operations, on a
valid input with all channels of length `N` the output has exactly the
input's keys and every channel of length `N`. -/
theorem c6_output_lengths_and_keys :
    (∀ (env : Env) (s : Sample) (strength : ℚ) (g : GState),
      s ≠ [] → (∀ kv ∈ s, kv.2.ndim = 1) →
      ∃ out g', veil_fusion_timeseries env s strength g = (.ok out, g') ∧
        keysOf out = keysOf s ∧ ∀ kv ∈ out, kv.2.data.length = minLen s) ∧
    (∀ (env : Env) (s : Sample) (strength : ℚ) (g : GState) (N : ℕ),
      (∀ kv ∈ s, kv.2.data.length = N) →
      (missingOf ["t", "pressure"] s = [] →
        ∃ out g', veil_barometer env s strength g = (.ok out, g') ∧
          keysOf out = keysOf s ∧ ∀ kv ∈ out, kv.2.data.length = N) ∧
      (missingOf ["t", "power"] s = [] →
        ∃ out g', veil_rf env s strength g = (.ok out, g') ∧
          keysOf out = keysOf s ∧ ∀ kv ∈ out, kv.2.data.length = N) ∧
      (missingOf ["t", "range"] s = [] →
        ∃ out g', veil_ultrasonic env s strength g = (.ok out, g') ∧
          keysOf out = keysOf s ∧ ∀ kv ∈ out, kv.2.data.length = N) ∧
      (missingOf ["t", "mx", "my", "mz"] s = [] →
        ∃ out g', veil_magnetometer env s strength g = (.ok out, g') ∧
          keysOf out = keysOf s ∧ ∀ kv ∈ out, kv.2.data.length = N) ∧
      (missingOf ["t", "gx", "gy", "gz", "ax", "ay", "az"] s = [] →
        ∃ out g', veil_imu s strength g = (.ok out, g') ∧
          keysOf out = keysOf s ∧ ∀ kv ∈ out, kv.2.data.length = N)) := by
  constructor
  · intro env s strength g hne h1d
    simp only [veil_fusion_timeseries]
    rw [if_neg hne]
    have hfind : s.find? (fun kv => decide (kv.2.ndim ≠ 1)) = none := by
      rw [List.find?_eq_none]
      intro x hx
      simp [h1d x hx]
    simp only [hfind]
    by_cases hn : minLen (copyF32 s) = 0
    · rw [if_pos hn]
      refine ⟨_, _, rfl, ?_, ?_⟩
      · simp [keysOf, copyF32]
      · intro kv hkv
        obtain ⟨kv0, _, rfl⟩ := List.mem_map.mp hkv
        rw [← minLen_copyF32 s, hn]
        rfl
    · rw [if_neg hn]
      refine ⟨_, _, rfl, ?_, ?_⟩
      · rw [(fusionLoop_entries _ _ _ _ _ _ _).1]
        simp [keysOf, copyF32]
      · intro kv hkv
        obtain ⟨_, kv0, hkv0, _, hlen⟩ := (fusionLoop_entries _ _ _ _ _ _ _).2 kv hkv
        rw [hlen]
        obtain ⟨kv1, hkv1, rfl⟩ := List.mem_map.mp hkv0
        have hle : minLen (copyF32 s) ≤ kv1.2.data.length := minLen_le hkv1
        have hl1 : (cumsum (((get_rng g).1).normalVec 0 (1/20 * strength)
            (minLen (copyF32 s))).1).length = minLen (copyF32 s) := by
          rw [length_cumsum, length_normalVec]
        rw [← minLen_copyF32 s]
        simp only [List.length_take, length_cumsum, length_normalVec, List.length_map,
          length_linspace, length_movingAvg5]
        omega
  · intro env s strength g N hN
    have hTN : ∀ req : List String, missingOf req s = [] → "t" ∈ req →
        (getD (copyF32 s) "t").length = N := by
      intro req h1 hmem
      exact getD_length (by rw [hasKey_copyF32]; exact hasKey_of_missingOf_nil h1 hmem)
        (lengths_copyF32 hN)
    refine ⟨?_, ?_, ?_, ?_, ?_⟩
    · intro h1
      have hnN := hTN _ h1 (by simp)
      have hpN : (getD (copyF32 s) "pressure").length = N :=
        getD_length (by rw [hasKey_copyF32]; exact hasKey_of_missingOf_nil h1 (by simp))
          (lengths_copyF32 hN)
      simp only [veil_barometer]
      rw [h1, if_neg (fun h => h rfl : ¬ (([] : List String) ≠ []))]
      by_cases hn : (getD (copyF32 s) "t").length = 0
      · rw [if_pos hn]
        exact ⟨_, _, rfl, keysOf_copyF32 s, lengths_copyF32 hN⟩
      · rw [if_neg hn]
        refine ⟨_, _, rfl, ?_, ?_⟩
        · rw [keysOf_setA, keysOf_copyF32]
        · apply length_entries_setA (lengths_copyF32 hN)
          apply length_addL_eq
          · apply baroIter_len
            apply length_addL_eq hpN
            rw [length_smulL]
            apply length_addL_eq
            · rw [length_baroDriftCurve, length_tNorm, hnN]
            · rw [length_cumsum, length_normalVec, hnN]
          · rw [length_normalByVec, length_smulL, List.length_map, length_tNorm, hnN]
    · intro h1
      have hnN := hTN _ h1 (by simp)
      have hpN : (getD (copyF32 s) "power").length = N :=
        getD_length (by rw [hasKey_copyF32]; exact hasKey_of_missingOf_nil h1 (by simp))
          (lengths_copyF32 hN)
      simp only [veil_rf]
      rw [h1, if_neg (fun h => h rfl : ¬ (([] : List String) ≠ []))]
      by_cases hn : (getD (copyF32 s) "t").length = 0
      · rw [if_pos hn]
        exact ⟨_, _, rfl, keysOf_copyF32 s, lengths_copyF32 hN⟩
      · rw [if_neg hn]
        refine ⟨_, _, rfl, ?_, ?_⟩
        · rw [keysOf_setA, keysOf_copyF32]
        · apply length_entries_setA (lengths_copyF32 hN)
          apply length_addL_eq
          · apply rfIter_len
            apply length_addL_eq hpN
            rw [length_smulL]
            apply length_addL_eq
            · rw [length_rfWarpCurve, length_tNorm, hnN]
            · rw [length_cumsum, length_normalVec, hnN]
          · rw [length_normalByVec, length_smulL, List.length_map, length_tNorm, hnN]
    · intro h1
      have hnN := hTN _ h1 (by simp)
      have hpN : (getD (copyF32 s) "range").length = N :=
        getD_length (by rw [hasKey_copyF32]; exact hasKey_of_missingOf_nil h1 (by simp))
          (lengths_copyF32 hN)
      simp only [veil_ultrasonic]
      rw [h1, if_neg (fun h => h rfl : ¬ (([] : List String) ≠ []))]
      by_cases hn : (getD (copyF32 s) "t").length = 0
      · rw [if_pos hn]
        exact ⟨_, _, rfl, keysOf_copyF32 s, lengths_copyF32 hN⟩
      · rw [if_neg hn]
        refine ⟨_, _, rfl, ?_, ?_⟩
        · rw [keysOf_setA, keysOf_copyF32]
        · apply length_entries_setA (lengths_copyF32 hN)
          rw [length_clipL]
          apply length_addL_eq
          · apply ultraIter_len
            apply length_addL_eq hpN
            rw [length_smulL]
            apply length_addL_eq
            · rw [length_ultraBaselineCurve, length_tNorm, hnN]
            · rw [length_cumsum, length_normalVec, hnN]
          · rw [length_normalByVec, length_smulL, List.length_map, length_tNorm, hnN]
    · intro h1
      have hnN := hTN _ h1 (by simp)
      have hxN : (getD (copyF32 s) "mx").length = N :=
        getD_length (by rw [hasKey_copyF32]; exact hasKey_of_missingOf_nil h1 (by simp))
          (lengths_copyF32 hN)
      have hyN : (getD (copyF32 s) "my").length = N :=
        getD_length (by rw [hasKey_copyF32]; exact hasKey_of_missingOf_nil h1 (by simp))
          (lengths_copyF32 hN)
      have hzN : (getD (copyF32 s) "mz").length = N :=
        getD_length (by rw [hasKey_copyF32]; exact hasKey_of_missingOf_nil h1 (by simp))
          (lengths_copyF32 hN)
      simp only [veil_magnetometer]
      rw [h1, if_neg (fun h => h rfl : ¬ (([] : List String) ≠ []))]
      by_cases hn : (getD (copyF32 s) "t").length = 0
      · rw [if_pos hn]
        exact ⟨_, _, rfl, keysOf_copyF32 s, lengths_copyF32 hN⟩
      · rw [if_neg hn]
        refine ⟨_, _, rfl, ?_, ?_⟩
        · rw [keysOf_setA, keysOf_setA, keysOf_setA, keysOf_copyF32]
        · have htn : (tNorm (getD (copyF32 s) "t")).length = N := by
            rw [length_tNorm, hnN]
          have hrep : (List.replicate ((getD (copyF32 s) "t").length) (0 : ℚ)).length = N := by
            rw [List.length_replicate]; exact hnN
          apply length_entries_setA
          apply length_entries_setA
          apply length_entries_setA (lengths_copyF32 hN)
          all_goals refine length_addL_eq ?_ (by rw [length_normalVec]; exact hnN)
          all_goals first
            | refine (magIter_len ?_ ?_ ?_).1
            | refine (magIter_len ?_ ?_ ?_).2.1
            | refine (magIter_len ?_ ?_ ?_).2.2
          all_goals refine length_addL_eq (by first | exact hxN | exact hyN | exact hzN) ?_
          all_goals rw [length_smulL]
          all_goals refine length_addL_eq ?_ (by rw [length_cumsum]; simp only [Rng.normalMat3, List.length_map, List.length_range]; exact hnN)
          all_goals repeat' first
            | exact hrep
            | refine (length_magDriftTerm ?_ ?_ ?_ htn).1
            | refine (length_magDriftTerm ?_ ?_ ?_ htn).2.1
            | refine (length_magDriftTerm ?_ ?_ ?_ htn).2.2
    · intro h1
      have hnN := hTN _ h1 (by simp)
      have hc : ∀ k ∈ ["gx", "gy", "gz", "ax", "ay", "az"],
          (getD (copyF32 s) k).length = N := by
        intro k hk
        refine getD_length ?_ (lengths_copyF32 hN)
        rw [hasKey_copyF32]
        refine hasKey_of_missingOf_nil h1 ?_
        fin_cases hk <;> simp
      simp only [veil_imu]
      rw [h1, if_neg (fun h => h rfl : ¬ (([] : List String) ≠ []))]
      by_cases hn : (getD (copyF32 s) "t").length = 0
      · rw [if_pos hn]
        exact ⟨_, _, rfl, keysOf_copyF32 s, lengths_copyF32 hN⟩
      · rw [if_neg hn]
        refine ⟨_, _, rfl, ?_, ?_⟩
        · rw [keysOf_setA, keysOf_setA, keysOf_setA, keysOf_setA, keysOf_setA,
            keysOf_setA, keysOf_copyF32]
        · apply length_entries_setA
          apply length_entries_setA
          apply length_entries_setA
          apply length_entries_setA
          apply length_entries_setA
          apply length_entries_setA (lengths_copyF32 hN)
          all_goals refine length_addL_eq ?_ (by rw [length_normalVec]; exact hnN)
          all_goals first
            | refine (imuIter_len ?_ ?_ ?_ ?_ ?_ ?_).1
            | refine (imuIter_len ?_ ?_ ?_ ?_ ?_ ?_).2.1
            | refine (imuIter_len ?_ ?_ ?_ ?_ ?_ ?_).2.2.1
            | refine (imuIter_len ?_ ?_ ?_ ?_ ?_ ?_).2.2.2.1
            | refine (imuIter_len ?_ ?_ ?_ ?_ ?_ ?_).2.2.2.2.1
            | refine (imuIter_len ?_ ?_ ?_ ?_ ?_ ?_).2.2.2.2.2
          all_goals first
            | exact hc "gx" (by simp)
            | exact hc "gy" (by simp)
            | exact hc "az" (by simp)
            | exact length_addL_eq (hc "gz" (by simp)) (by rw [length_linspace]; exact hnN)
            | exact length_addL_eq (hc "ax" (by simp)) (by rw [length_linspace]; exact hnN)
            | exact length_addL_eq (hc "ay" (by simp)) (by rw [length_linspace]; exact hnN)

/-- Witness for C6 at the concrete 13-channel sample of length 1: the fusion
engine and two representative single-sensor engines succeed with the input's
keys and all output lengths equal to the (minimum) input length. -/
theorem c6_output_lengths_witness :
    (∃ out g', veil_fusion_timeseries env0 allKeysOneFix 1 gZeroRng = (.ok out, g') ∧
      keysOf out = keysOf allKeysOneFix ∧
      ∀ kv ∈ out, kv.2.data.length = minLen allKeysOneFix) ∧
    (∃ out g', veil_barometer env0 allKeysOneFix 1 gZeroRng = (.ok out, g') ∧
      keysOf out = keysOf allKeysOneFix ∧ ∀ kv ∈ out, kv.2.data.length = 1) ∧
    (∃ out g', veil_imu allKeysOneFix 1 gZeroRng = (.ok out, g') ∧
      keysOf out = keysOf allKeysOneFix ∧ ∀ kv ∈ out, kv.2.data.length = 1) :=
  ⟨c6_output_lengths_and_keys.1 env0 allKeysOneFix 1 gZeroRng
      (List.cons_ne_nil _ _) (by decide),
   (c6_output_lengths_and_keys.2 env0 allKeysOneFix 1 gZeroRng 1 (by decide)).1 (by decide),
   (c6_output_lengths_and_keys.2 env0 allKeysOneFix 1 gZeroRng 1
      (by decide)).2.2.2.2 (by decide)⟩

/-! ## C10: float32 conversion of every output channel -/

/-- **C10**: on any valid input, every veil operation returns a mapping whose
channels all carry the float32 dtype; the single-sensor operations accept
arbitrary extra channels (validation only checks presence of the required
keys) and pass every non-target channel through as its float32 copy. -/
theorem c10_all_channels_float32 :
    (∀ (env : Env) (s : Sample) (strength : ℚ) (g : GState),
      s ≠ [] → (∀ kv ∈ s, kv.2.ndim = 1) →
      ∃ out g', veil_fusion_timeseries env s strength g = (.ok out, g') ∧
        ∀ kv ∈ out, kv.2.dtype = DType.f32) ∧
    (∀ (env : Env) (s : Sample) (strength : ℚ) (g : GState),
      (missingOf ["t", "pressure"] s = [] →
        ∃ out g', veil_barometer env s strength g = (.ok out, g') ∧
          (∀ kv ∈ out, kv.2.dtype = DType.f32) ∧
          ∀ k, k ≠ "pressure" → out.lookup k = (s.lookup k).map asarrayF32) ∧
      (missingOf ["t", "power"] s = [] →
        ∃ out g', veil_rf env s strength g = (.ok out, g') ∧
          (∀ kv ∈ out, kv.2.dtype = DType.f32) ∧
          ∀ k, k ≠ "power" → out.lookup k = (s.lookup k).map asarrayF32) ∧
      (missingOf ["t", "range"] s = [] →
        ∃ out g', veil_ultrasonic env s strength g = (.ok out, g') ∧
          (∀ kv ∈ out, kv.2.dtype = DType.f32) ∧
          ∀ k, k ≠ "range" → out.lookup k = (s.lookup k).map asarrayF32) ∧
      (missingOf ["t", "mx", "my", "mz"] s = [] →
        ∃ out g', veil_magnetometer env s strength g = (.ok out, g') ∧
          (∀ kv ∈ out, kv.2.dtype = DType.f32) ∧
          ∀ k, k ≠ "mx" → k ≠ "my" → k ≠ "mz" →
            out.lookup k = (s.lookup k).map asarrayF32) ∧
      (missingOf ["t", "gx", "gy", "gz", "ax", "ay", "az"] s = [] →
        ∃ out g', veil_imu s strength g = (.ok out, g') ∧
          (∀ kv ∈ out, kv.2.dtype = DType.f32) ∧
          ∀ k, k ≠ "gx" → k ≠ "gy" → k ≠ "gz" → k ≠ "ax" → k ≠ "ay" → k ≠ "az" →
            out.lookup k = (s.lookup k).map asarrayF32)) := by
  constructor
  · intro env s strength g hne h1d
    simp only [veil_fusion_timeseries]
    rw [if_neg hne]
    have hfind : s.find? (fun kv => decide (kv.2.ndim ≠ 1)) = none := by
      rw [List.find?_eq_none]
      intro x hx
      simp [h1d x hx]
    simp only [hfind]
    by_cases hn : minLen (copyF32 s) = 0
    · rw [if_pos hn]
      refine ⟨_, _, rfl, ?_⟩
      intro kv hkv
      obtain ⟨kv0, hkv0, rfl⟩ := List.mem_map.mp hkv
      exact dtype_copyF32 s kv0 hkv0
    · rw [if_neg hn]
      refine ⟨_, _, rfl, ?_⟩
      intro kv hkv
      exact ((fusionLoop_entries _ _ _ _ _ _ _).2 kv hkv).1
  · intro env s strength g
    refine ⟨?_, ?_, ?_, ?_, ?_⟩
    · intro h1
      simp only [veil_barometer]
      rw [h1, if_neg (fun h => h rfl : ¬ (([] : List String) ≠ []))]
      by_cases hn : (getD (copyF32 s) "t").length = 0
      · rw [if_pos hn]
        exact ⟨_, _, rfl, dtype_copyF32 s, fun k _ => lookup_copyF32 s k⟩
      · rw [if_neg hn]
        refine ⟨_, _, rfl, dtype_entries_setA (dtype_copyF32 s) rfl, ?_⟩
        intro k hk
        rw [lookup_setA_ne _ _ _ _ hk]
        exact lookup_copyF32 s k
    · intro h1
      simp only [veil_rf]
      rw [h1, if_neg (fun h => h rfl : ¬ (([] : List String) ≠ []))]
      by_cases hn : (getD (copyF32 s) "t").length = 0
      · rw [if_pos hn]
        exact ⟨_, _, rfl, dtype_copyF32 s, fun k _ => lookup_copyF32 s k⟩
      · rw [if_neg hn]
        refine ⟨_, _, rfl, dtype_entries_setA (dtype_copyF32 s) rfl, ?_⟩
        intro k hk
        rw [lookup_setA_ne _ _ _ _ hk]
        exact lookup_copyF32 s k
    · intro h1
      simp only [veil_ultrasonic]
      rw [h1, if_neg (fun h => h rfl : ¬ (([] : List String) ≠ []))]
      by_cases hn : (getD (copyF32 s) "t").length = 0
      · rw [if_pos hn]
        exact ⟨_, _, rfl, dtype_copyF32 s, fun k _ => lookup_copyF32 s k⟩
      · rw [if_neg hn]
        refine ⟨_, _, rfl, dtype_entries_setA (dtype_copyF32 s) rfl, ?_⟩
        intro k hk
        rw [lookup_setA_ne _ _ _ _ hk]
        exact lookup_copyF32 s k
    · intro h1
      simp only [veil_magnetometer]
      rw [h1, if_neg (fun h => h rfl : ¬ (([] : List String) ≠ []))]
      by_cases hn : (getD (copyF32 s) "t").length = 0
      · rw [if_pos hn]
        exact ⟨_, _, rfl, dtype_copyF32 s, fun k _ _ _ => lookup_copyF32 s k⟩
      · rw [if_neg hn]
        refine ⟨_, _, rfl,
          dtype_entries_setA (dtype_entries_setA (dtype_entries_setA
            (dtype_copyF32 s) rfl) rfl) rfl, ?_⟩
        intro k hk1 hk2 hk3
        rw [lookup_setA_ne _ _ _ _ hk3, lookup_setA_ne _ _ _ _ hk2,
          lookup_setA_ne _ _ _ _ hk1]
        exact lookup_copyF32 s k
    · intro h1
      simp only [veil_imu]
      rw [h1, if_neg (fun h => h rfl : ¬ (([] : List String) ≠ []))]
      by_cases hn : (getD (copyF32 s) "t").length = 0
      · rw [if_pos hn]
        exact ⟨_, _, rfl, dtype_copyF32 s, fun k _ _ _ _ _ _ => lookup_copyF32 s k⟩
      · rw [if_neg hn]
        refine ⟨_, _, rfl,
          dtype_entries_setA (dtype_entries_setA (dtype_entries_setA (dtype_entries_setA
            (dtype_entries_setA (dtype_entries_setA (dtype_copyF32 s)
              rfl) rfl) rfl) rfl) rfl) rfl, ?_⟩
        intro k hk1 hk2 hk3 hk4 hk5 hk6
        rw [lookup_setA_ne _ _ _ _ hk6, lookup_setA_ne _ _ _ _ hk5,
          lookup_setA_ne _ _ _ _ hk4, lookup_setA_ne _ _ _ _ hk3,
          lookup_setA_ne _ _ _ _ hk2, lookup_setA_ne _ _ _ _ hk1]
        exact lookup_copyF32 s k

/-- Witness for C10 at the 13-channel length-1 sample (which carries many
channels beyond each engine's required set): fusion and the barometer succeed
with all-float32 outputs and pass the extra channels through as f32 copies. -/
theorem c10_all_channels_float32_witness :
    (∃ out g', veil_fusion_timeseries env0 allKeysOneFix 1 gZeroRng = (.ok out, g') ∧
      ∀ kv ∈ out, kv.2.dtype = DType.f32) ∧
    (∃ out g', veil_barometer env0 allKeysOneFix 1 gZeroRng = (.ok out, g') ∧
      (∀ kv ∈ out, kv.2.dtype = DType.f32) ∧
      ∀ k, k ≠ "pressure" → out.lookup k = (allKeysOneFix.lookup k).map asarrayF32) :=
  ⟨c10_all_channels_float32.1 env0 allKeysOneFix 1 gZeroRng
      (List.cons_ne_nil _ _) (by decide),
   (c10_all_channels_float32.2 env0 allKeysOneFix 1 gZeroRng).1 (by decide)⟩

/-- **C7 (amended)**: the single-sensor veil operations never write to a
non-target channel, but they do convert it: on any valid input, every channel
other than the engine's target channel(s) appears in the output with data equal
to the binary32 rounding of the input data, and hence value-unchanged exactly
when the input values are already binary32-representable. (The fusion engine
mixes every stream, so no channel of it is passed through.) -/
theorem c7_nontarget_channels_are_f32_copies :
    ∀ (env : Env) (s : Sample) (strength : ℚ) (g : GState),
      (missingOf ["t", "pressure"] s = [] →
        ∃ out g', veil_barometer env s strength g = (.ok out, g') ∧
          ∀ k, k ≠ "pressure" →
            getD out k = (getD s k).map f32 ∧
            ((∀ x ∈ getD s k, f32 x = x) → getD out k = getD s k)) ∧
      (missingOf ["t", "power"] s = [] →
        ∃ out g', veil_rf env s strength g = (.ok out, g') ∧
          ∀ k, k ≠ "power" →
            getD out k = (getD s k).map f32 ∧
            ((∀ x ∈ getD s k, f32 x = x) → getD out k = getD s k)) ∧
      (missingOf ["t", "range"] s = [] →
        ∃ out g', veil_ultrasonic env s strength g = (.ok out, g') ∧
          ∀ k, k ≠ "range" →
            getD out k = (getD s k).map f32 ∧
            ((∀ x ∈ getD s k, f32 x = x) → getD out k = getD s k)) ∧
      (missingOf ["t", "mx", "my", "mz"] s = [] →
        ∃ out g', veil_magnetometer env s strength g = (.ok out, g') ∧
          ∀ k, k ≠ "mx" → k ≠ "my" → k ≠ "mz" →
            getD out k = (getD s k).map f32 ∧
            ((∀ x ∈ getD s k, f32 x = x) → getD out k = getD s k)) ∧
      (missingOf ["t", "gx", "gy", "gz", "ax", "ay", "az"] s = [] →
        ∃ out g', veil_imu s strength g = (.ok out, g') ∧
          ∀ k, k ≠ "gx" → k ≠ "gy" → k ≠ "gz" → k ≠ "ax" → k ≠ "ay" → k ≠ "az" →
            getD out k = (getD s k).map f32 ∧
            ((∀ x ∈ getD s k, f32 x = x) → getD out k = getD s k)) := by
  intro env s strength g
  refine ⟨?_, ?_, ?_, ?_, ?_⟩
  · intro h1
    simp only [veil_barometer]
    rw [h1, if_neg (fun h => h rfl : ¬ (([] : List String) ≠ []))]
    by_cases hn : (getD (copyF32 s) "t").length = 0
    · rw [if_pos hn]
      refine ⟨_, _, rfl, fun k _ => ?_⟩
      have hl := lookup_copyF32 s k
      exact ⟨getD_map_f32_of_lookup hl,
        fun hfix => by rw [getD_map_f32_of_lookup hl, map_f32_fixed hfix]⟩
    · rw [if_neg hn]
      refine ⟨_, _, rfl, fun k hk => ?_⟩
      rw [getD_setA_ne _ _ _ _ hk, getD_copyF32]
      exact ⟨rfl, fun hfix => map_f32_fixed hfix⟩
  · intro h1
    simp only [veil_rf]
    rw [h1, if_neg (fun h => h rfl : ¬ (([] : List String) ≠ []))]
    by_cases hn : (getD (copyF32 s) "t").length = 0
    · rw [if_pos hn]
      refine ⟨_, _, rfl, fun k _ => ?_⟩
      have hl := lookup_copyF32 s k
      exact ⟨getD_map_f32_of_lookup hl,
        fun hfix => by rw [getD_map_f32_of_lookup hl, map_f32_fixed hfix]⟩
    · rw [if_neg hn]
      refine ⟨_, _, rfl, fun k hk => ?_⟩
      rw [getD_setA_ne _ _ _ _ hk, getD_copyF32]
      exact ⟨rfl, fun hfix => map_f32_fixed hfix⟩
  · intro h1
    simp only [veil_ultrasonic]
    rw [h1, if_neg (fun h => h rfl : ¬ (([] : List String) ≠ []))]
    by_cases hn : (getD (copyF32 s) "t").length = 0
    · rw [if_pos hn]
      refine ⟨_, _, rfl, fun k _ => ?_⟩
      have hl := lookup_copyF32 s k
      exact ⟨getD_map_f32_of_lookup hl,
        fun hfix => by rw [getD_map_f32_of_lookup hl, map_f32_fixed hfix]⟩
    · rw [if_neg hn]
      refine ⟨_, _, rfl, fun k hk => ?_⟩
      rw [getD_setA_ne _ _ _ _ hk, getD_copyF32]
      exact ⟨rfl, fun hfix => map_f32_fixed hfix⟩
  · intro h1
    simp only [veil_magnetometer]
    rw [h1, if_neg (fun h => h rfl : ¬ (([] : List String) ≠ []))]
    by_cases hn : (getD (copyF32 s) "t").length = 0
    · rw [if_pos hn]
      refine ⟨_, _, rfl, fun k _ _ _ => ?_⟩
      have hl := lookup_copyF32 s k
      exact ⟨getD_map_f32_of_lookup hl,
        fun hfix => by rw [getD_map_f32_of_lookup hl, map_f32_fixed hfix]⟩
    · rw [if_neg hn]
      refine ⟨_, _, rfl, fun k hk1 hk2 hk3 => ?_⟩
      rw [getD_setA_ne _ _ _ _ hk3, getD_setA_ne _ _ _ _ hk2,
        getD_setA_ne _ _ _ _ hk1, getD_copyF32]
      exact ⟨rfl, fun hfix => map_f32_fixed hfix⟩
  · intro h1
    simp only [veil_imu]
    rw [h1, if_neg (fun h => h rfl : ¬ (([] : List String) ≠ []))]
    by_cases hn : (getD (copyF32 s) "t").length = 0
    · rw [if_pos hn]
      refine ⟨_, _, rfl, fun k _ _ _ _ _ _ => ?_⟩
      have hl := lookup_copyF32 s k
      exact ⟨getD_map_f32_of_lookup hl,
        fun hfix => by rw [getD_map_f32_of_lookup hl, map_f32_fixed hfix]⟩
    · rw [if_neg hn]
      refine ⟨_, _, rfl, fun k hk1 hk2 hk3 hk4 hk5 hk6 => ?_⟩
      rw [getD_setA_ne _ _ _ _ hk6, getD_setA_ne _ _ _ _ hk5,
        getD_setA_ne _ _ _ _ hk4, getD_setA_ne _ _ _ _ hk3,
        getD_setA_ne _ _ _ _ hk2, getD_setA_ne _ _ _ _ hk1, getD_copyF32]
      exact ⟨rfl, fun hfix => map_f32_fixed hfix⟩

/-- **C2 (amended)**: the barometer, RF, ultrasonic and magnetometer veil
operations each compute channel statistics of their target channel(s) — span
and standard deviation both floored at `1e-3` (magnetometer over the stacked
three axes) — and compose into the target channel a drift term scaled by the
span, at least one anomaly event, and adaptive noise scaled by the span
(std for the magnetometer); `veil_imu` does not (its noise scales are fixed
multiples of `strength`, independent of the channel statistics). -/
theorem c2_stats_scaled_composition :
    ∀ (env : Env) (s : Sample) (strength : ℚ) (g : GState),
      (missingOf ["t", "pressure"] s = [] → getD (copyF32 s) "t" ≠ [] →
        ∃ (out : Sample) (g' : GState) (d e : List ℚ) (c : ℤ) (r1 r2 : Rng),
          veil_barometer env s strength g = (.ok out, g') ∧
          getD out "pressure" =
            addL
              (iterateDraws
                (baroAnomStep (getD (copyF32 s) "t").length
                  (max (stdL env (getD (copyF32 s) "pressure")) (1/1000)) strength)
                c.toNat
                (addL (getD (copyF32 s) "pressure")
                  (smulL (3/100 *
                    max (listMax (getD (copyF32 s) "pressure") -
                      listMin (getD (copyF32 s) "pressure")) (1/1000)) d))
                r1).1
              (r2.normalByVec
                (smulL (1/100 *
                  max (listMax (getD (copyF32 s) "pressure") -
                    listMin (getD (copyF32 s) "pressure")) (1/1000) * strength) e)).1 ∧
          1 ≤ c) ∧
      (missingOf ["t", "power"] s = [] → getD (copyF32 s) "t" ≠ [] →
        ∃ (out : Sample) (g' : GState) (d e : List ℚ) (c : ℤ) (r1 r2 : Rng),
          veil_rf env s strength g = (.ok out, g') ∧
          getD out "power" =
            addL
              (iterateDraws
                (rfBurstStep (getD (copyF32 s) "t").length
                  (max (stdL env (getD (copyF32 s) "power")) (1/1000)) strength)
                c.toNat
                (addL (getD (copyF32 s) "power")
                  (smulL (1/5 *
                    max (listMax (getD (copyF32 s) "power") -
                      listMin (getD (copyF32 s) "power")) (1/1000)) d))
                r1).1
              (r2.normalByVec
                (smulL (1/20 *
                  max (listMax (getD (copyF32 s) "power") -
                    listMin (getD (copyF32 s) "power")) (1/1000) * strength) e)).1 ∧
          1 ≤ c) ∧
      (missingOf ["t", "range"] s = [] → getD (copyF32 s) "t" ≠ [] →
        ∃ (out : Sample) (g' : GState) (d e : List ℚ) (c : ℤ) (r1 r2 : Rng),
          veil_ultrasonic env s strength g = (.ok out, g') ∧
          getD out "range" =
            clipL 0
              (listMax (getD (copyF32 s) "range") + 1/2 *
                max (listMax (getD (copyF32 s) "range") -
                  listMin (getD (copyF32 s) "range")) (1/1000))
              (addL
                (iterateDraws
                  (ultraEventStep (getD (copyF32 s) "t").length
                    (listMin (getD (copyF32 s) "range"))
                    (listMax (getD (copyF32 s) "range"))
                    (max (listMax (getD (copyF32 s) "range") -
                      listMin (getD (copyF32 s) "range")) (1/1000)))
                  c.toNat
                  (addL (getD (copyF32 s) "range")
                    (smulL (1/10 *
                      max (listMax (getD (copyF32 s) "range") -
                        listMin (getD (copyF32 s) "range")) (1/1000)) d))
                  r1).1
                (r2.normalByVec
                  (smulL (1/50 *
                    max (listMax (getD (copyF32 s) "range") -
                      listMin (getD (copyF32 s) "range")) (1/1000) * strength) e)).1) ∧
          1 ≤ c) ∧
      (missingOf ["t", "mx", "my", "mz"] s = [] → getD (copyF32 s) "t" ≠ [] →
        ∃ (out : Sample) (g' : GState) (m : Mag3) (dx : List ℚ) (c : ℤ) (r1 r2 : Rng),
          veil_magnetometer env s strength g = (.ok out, g') ∧
          getD out "mx" =
            addL
              (iterateDraws
                (magAnomStep env (getD (copyF32 s) "t").length
                  (max (stdL env (getD (copyF32 s) "mx" ++ getD (copyF32 s) "my" ++
                    getD (copyF32 s) "mz")) (1/1000)) strength)
                c.toNat m r1).1.mx
              (r2.normalVec 0
                (1/20 *
                  max (stdL env (getD (copyF32 s) "mx" ++ getD (copyF32 s) "my" ++
                    getD (copyF32 s) "mz")) (1/1000) * strength)
                (getD (copyF32 s) "t").length).1 ∧
          m.mx = addL (getD (copyF32 s) "mx")
            (smulL (1/20 *
              max (listMax (getD (copyF32 s) "mx" ++ getD (copyF32 s) "my" ++
                  getD (copyF32 s) "mz") -
                listMin (getD (copyF32 s) "mx" ++ getD (copyF32 s) "my" ++
                  getD (copyF32 s) "mz")) (1/1000)) dx) ∧
          1 ≤ c) := by
  intro env s strength g
  refine ⟨?_, ?_, ?_, ?_⟩
  · intro h1 hne
    have hn : ¬ (getD (copyF32 s) "t").length = 0 :=
      fun h0 => hne (List.eq_nil_of_length_eq_zero h0)
    have hkp : hasKey (copyF32 s) "pressure" = true := by
      rw [hasKey_copyF32]; exact hasKey_of_missingOf_nil h1 (by simp)
    simp only [veil_barometer]
    rw [h1, if_neg (fun h => h rfl : ¬ (([] : List String) ≠ []))]
    rw [if_neg hn]
    exact ⟨_, _, _, _, _, _, _, rfl,
      by rw [getD_setA_self _ _ _ hkp]; exact rfl, le_max_right _ _⟩
  · intro h1 hne
    have hn : ¬ (getD (copyF32 s) "t").length = 0 :=
      fun h0 => hne (List.eq_nil_of_length_eq_zero h0)
    have hkp : hasKey (copyF32 s) "power" = true := by
      rw [hasKey_copyF32]; exact hasKey_of_missingOf_nil h1 (by simp)
    simp only [veil_rf]
    rw [h1, if_neg (fun h => h rfl : ¬ (([] : List String) ≠ []))]
    rw [if_neg hn]
    exact ⟨_, _, _, _, _, _, _, rfl,
      by rw [getD_setA_self _ _ _ hkp]; exact rfl, le_max_right _ _⟩
  · intro h1 hne
    have hn : ¬ (getD (copyF32 s) "t").length = 0 :=
      fun h0 => hne (List.eq_nil_of_length_eq_zero h0)
    have hkp : hasKey (copyF32 s) "range" = true := by
      rw [hasKey_copyF32]; exact hasKey_of_missingOf_nil h1 (by simp)
    simp only [veil_ultrasonic]
    rw [h1, if_neg (fun h => h rfl : ¬ (([] : List String) ≠ []))]
    rw [if_neg hn]
    exact ⟨_, _, _, _, _, _, _, rfl,
      by rw [getD_setA_self _ _ _ hkp]; exact rfl, le_max_right _ _⟩
  · intro h1 hne
    have hn : ¬ (getD (copyF32 s) "t").length = 0 :=
      fun h0 => hne (List.eq_nil_of_length_eq_zero h0)
    have hkx : hasKey (copyF32 s) "mx" = true := by
      rw [hasKey_copyF32]; exact hasKey_of_missingOf_nil h1 (by simp)
    simp only [veil_magnetometer]
    rw [h1, if_neg (fun h => h rfl : ¬ (([] : List String) ≠ []))]
    rw [if_neg hn]
    exact ⟨_, _, _, _, _, _, _, rfl,
      by
        rw [getD_setA_ne _ _ _ _ (by decide), getD_setA_ne _ _ _ _ (by decide),
          getD_setA_self _ _ _ hkx]
        exact rfl,
      rfl, le_max_right _ _⟩

/-- Witness for the amended C2 at the concrete barometer fixture
(`t = [0]`, `pressure = [1013]`, strength 1). -/
theorem c2_stats_scaled_witness :
    ∃ (out : Sample) (g' : GState) (d e : List ℚ) (c : ℤ) (r1 r2 : Rng),
      veil_barometer env0 baroFix 1 gZeroRng = (.ok out, g') ∧
      getD out "pressure" =
        addL
          (iterateDraws
            (baroAnomStep (getD (copyF32 baroFix) "t").length
              (max (stdL env0 (getD (copyF32 baroFix) "pressure")) (1/1000)) 1)
            c.toNat
            (addL (getD (copyF32 baroFix) "pressure")
              (smulL (3/100 *
                max (listMax (getD (copyF32 baroFix) "pressure") -
                  listMin (getD (copyF32 baroFix) "pressure")) (1/1000)) d))
            r1).1
          (r2.normalByVec
            (smulL (1/100 *
              max (listMax (getD (copyF32 baroFix) "pressure") -
                listMin (getD (copyF32 baroFix) "pressure")) (1/1000) * 1) e)).1 ∧
      1 ≤ c :=
  (c2_stats_scaled_composition env0 baroFix 1 gZeroRng).1 (by decide) (by decide)

/-- Witness for the amended C7 at the concrete barometer fixture
(`t = [0]`, `pressure = [1013]`). -/
theorem c7_nontarget_channels_witness :
    ∃ out g', veil_barometer env0 baroFix 1 gZeroRng = (.ok out, g') ∧
      ∀ k, k ≠ "pressure" →
        getD out k = (getD baroFix k).map f32 ∧
        ((∀ x ∈ getD baroFix k, f32 x = x) → getD out k = getD baroFix k) :=
  (c7_nontarget_channels_are_f32_copies env0 baroFix 1 gZeroRng).1 (by decide)

end DataVeil
